import Mathlib

/-!
RotomWorker: the relay pipeline of `src/main.cpp`.

A shallow embedding of the delivery queue, the data-channel client, the hook
chain, the message router, the sender worker, the connector loop, the scanner
and `readConfig` of `src/main.cpp`, and of the exported functions of
`src/cpp/shim/libshim_niantic.cpp`, followed by the properties proved about
them.

Conventions of the embedding

* The process globals (`g_running`, `g_sendQueue`, `g_dataWs`, `g_hooklibs`,
  `g_requestHandlers`, `g_responseHandlers`) are the fields of `World`.
  Every operation is a function `World → World` (state passing).
* Effects that leave the process (a frame handed to the websocket transport,
  `fs::remove`, a `sleep_for`, a hook or handler being called, a decode being
  run) are appended to `World.trace` in program order.  Console output is not
  recorded.
* What the environment decides (does the transport report an error, does
  `get_connection` fail, does a websocket callback fire between two
  statements) is an explicit argument of the operation.
* One loop iteration is composed without interleaving of the other threads.
-/

namespace RotomWorker

/-- A byte buffer (`std::vector<uint8_t>`). -/
abbrev Bytes := List (Fin 256)

/-- Conversion `(int)n` of a `size_t` to a 32-bit `int`. -/
def toInt32 (n : Nat) : Int :=
  ((n : Int) + 2 ^ 31) % 2 ^ 32 - 2 ^ 31

/-! ## Configuration (`struct Config`) -/

/-- The `Config::Rotom` block with its default member initialisers. -/
structure Config.Rotom where
  worker_endpoint : String := "ws://127.0.0.1:9001"
  device_endpoint : String := ""
  secret : String := ""
  use_compression : Bool := false
deriving DecidableEq, Repr

/-- The `Config::General` block with its default member initialisers. -/
structure Config.General where
  device_name : String := "android-device"
  workers : Int := 1
  dns_server : String := ""
  scan_dir : String := "/data/local/tmp/rotom_inbox"
deriving DecidableEq, Repr

/-- The `Config::Log` block. -/
structure Config.Log where
  level : String := "info"
deriving DecidableEq, Repr

/-- The `Config` structure of main.cpp. -/
structure Config where
  rotom : Config.Rotom := {}
  general : Config.General := {}
  log : Config.Log := {}
  worker_spawn_delay_ms : Int := 500
deriving DecidableEq, Repr

/-! ## Send queue -/

/-- A queued delivery (`struct SendItem`). -/
structure SendItem where
  path : String
  payload : Bytes
deriving DecidableEq, Repr

/-- The state guarded by the mutex of `class SendQueue`. -/
structure SendQueue where
  q_ : List SendItem := []
  closed_ : Bool := false
deriving DecidableEq, Repr

/-- Outcome of `SendQueue::wait_pop`: an item was moved out (`true`), the call
returned `false`, or the condition variable keeps the caller suspended. -/
inductive PopResult where
  | popped (out : SendItem) (s : SendQueue)
  | noItem (s : SendQueue)
  | waiting
deriving DecidableEq, Repr

namespace SendQueue

/-- The method `push`: `q_.push_back(std::move(it))`. -/
def push (s : SendQueue) (it : SendItem) : SendQueue :=
  { s with q_ := s.q_ ++ [it] }

/-- The method `wait_pop`: waits for `!q_.empty() || closed_`, then pops the
front when the deque is not empty and returns `false` otherwise. -/
def wait_pop (s : SendQueue) : PopResult :=
  match s.q_ with
  | it :: rest => .popped it { s with q_ := rest }
  | [] => if s.closed_ then .noItem s else .waiting

/-- The method `close`: `closed_ = true`. -/
def close (s : SendQueue) : SendQueue :=
  { s with closed_ := true }

/-- The method `size`: `q_.size()`. -/
def size (s : SendQueue) : Nat :=
  s.q_.length

end SendQueue

/-! ## Envelopes

`proto_gen/rotom.pb.h` is generated from `rotom.proto` and is not part of the
sources; the envelope types below carry the accessors that main.cpp uses. -/

/-- Modelled from the spec: the method discriminant of a Request envelope
(`RotomProtos::MitmRequest::Method`, generated header missing).  `LOGIN` and
`RPC_REQUEST` are the enumerators main.cpp names; `other` stands for every
further value the closed enumeration may hold. -/
inductive Method where
  | UNSET
  | LOGIN
  | RPC_REQUEST
  | other (value : Int)
deriving DecidableEq, Repr

/-- Modelled from the spec: the status discriminant of a Response envelope
(`RotomProtos::MitmResponse::Status`, generated header missing), with the
sentinel `UNSET`. -/
inductive Status where
  | UNSET
  | SUCCESS
  | other (value : Int)
deriving DecidableEq, Repr

/-- Modelled from the spec: `RotomProtos::AuthStatus` (generated header
missing). -/
inductive AuthStatus where
  | AUTH_STATUS_GOT_AUTH_TOKEN
  | other (value : Int)
deriving DecidableEq, Repr

/-- Modelled from the spec: `RotomProtos::RpcStatus` (generated header
missing). -/
inductive RpcStatus where
  | RPC_STATUS_SUCCESS
  | other (value : Int)
deriving DecidableEq, Repr

/-- Modelled from the spec: payload body `MitmRequest::LoginRequest`
(generated header missing); main.cpp reads `worker_id()`. -/
structure LoginRequest where
  worker_id : String := ""
deriving DecidableEq, Repr

/-- Modelled from the spec: payload body `MitmRequest::RpcRequest` (generated
header missing); main.cpp reads `request_size()`. -/
structure RpcRequest where
  request : List Bytes := []
deriving DecidableEq, Repr

/-- Modelled from the spec: the Request envelope `RotomProtos::MitmRequest`
(generated header missing): a method discriminant and the payload bodies. -/
structure MitmRequest where
  method : Method := .UNSET
  login_request : LoginRequest := {}
  rpc_request : RpcRequest := {}
deriving DecidableEq, Repr

/-- Modelled from the spec: payload body `MitmResponse::LoginResponse`
(generated header missing) with the four fields main.cpp sets. -/
structure LoginResponse where
  worker_id : String
  status : AuthStatus
  supports_compression : Bool
  useragent : String
deriving DecidableEq, Repr

/-- Modelled from the spec: payload body `MitmResponse::RpcResponse`
(generated header missing) with the field main.cpp sets. -/
structure RpcResponse where
  rpc_status : RpcStatus
deriving DecidableEq, Repr

/-- Modelled from the spec: the Response envelope `RotomProtos::MitmResponse`
(generated header missing): a status discriminant and the payload bodies. -/
structure MitmResponse where
  status : Status
  login_response : Option LoginResponse
  rpc_response : Option RpcResponse
deriving DecidableEq, Repr

/-- Modelled from the spec: the freshly constructed empty Response
(`RotomProtos::MitmResponse resp;`, generated header missing): status is the
sentinel `UNSET` and no payload body is present. -/
def MitmResponse.fresh : MitmResponse :=
  { status := .UNSET, login_response := none, rpc_response := none }

/-- Modelled from the spec: `RotomProtos::WelcomeMessage` (generated header
missing) with the fields `sendWelcome` sets. -/
structure WelcomeMessage where
  worker_id : String
  origin : String
  version_code : Int
  version_name : String
  useragent : String
  device_id : String
deriving DecidableEq, Repr

/-- Modelled from the spec: the structured message codec that the generated
header provides (missing from the sources), taken as a parameter.
`parseRequest data size` is `ParseFromArray(data, size)`, `none` when it
returns false; `statusValue` is the numeric value of a status enumerator. -/
structure Proto where
  parseRequest : Bytes → Int → Option MitmRequest
  serializeRequest : MitmRequest → Bytes
  parseResponse : Bytes → Int → Option MitmResponse
  serializeResponse : MitmResponse → Bytes
  serializeWelcome : WelcomeMessage → Option Bytes
  statusValue : Status → Int

/-- The round-trip law of the codec on Request envelopes: decoding an encoded
envelope gives the envelope back. -/
def Proto.RequestRoundTrip (proto : Proto) : Prop :=
  ∀ req : MitmRequest,
    proto.parseRequest (proto.serializeRequest req)
      ((proto.serializeRequest req).length : Int) = some req

/-! ## Hook libraries -/

/-- What a hook entry point leaves behind: its return code, the `out` pointer
(`none` is `nullptr`, `some buf` the memory it points to) and `out_len`. -/
structure HookResult where
  rc : Int
  out : Option Bytes
  out_len : Nat
deriving DecidableEq, Repr

/-- The type `so_HandleReq_t`: called with `raw.data(), raw.size()`. -/
abbrev so_HandleReq_t := Bytes → HookResult

/-- The type `so_HandleResp_t`. -/
abbrev so_HandleResp_t := Bytes → HookResult

/-- A loaded library (`struct HookLib`); an entry point that `dlsym` did not
find is `none`. -/
structure HookLib where
  handleReq : Option so_HandleReq_t := none
  handleResp : Option so_HandleResp_t := none
  path : String := ""
  loaded : Bool := false

/-- The test `rc == 0 && out && out_len > 0` of the two dispatchers. -/
def HookResult.produced (r : HookResult) : Bool :=
  r.rc == 0 && r.out.isSome && decide (r.out_len > 0)

/-- The vector `v(out, out + out_len)` built from a hook result. -/
def HookResult.buffer (r : HookResult) : Bytes :=
  (r.out.getD []).take r.out_len

/-! ## Trace and world -/

/-- An observable effect, in program order. -/
inductive Event where
  | hookReq (path : String) (raw : Bytes)
  | hookResp (path : String) (raw : Bytes)
  | parseRequest (raw : Bytes)
  | parseResponse (raw : Bytes)
  | reqHandler (name : String) (req : MitmRequest) (resp : MitmResponse)
  | respHandler (key : String) (resp : MitmResponse)
  | transport (data : Bytes)
  | send_binary (data : Bytes) (ret : Bool)
  | connect (uri : String) (ret : Bool)
  | remove (path : String)
  | sleep_seconds (n : Int)
  | sleep_millis (n : Int)
deriving DecidableEq, Repr

/-- The data-channel client state read by the rest of the program
(`WsDataClient::connected`). -/
structure WsDataClient where
  connected : Bool := false
deriving DecidableEq, Repr

/-- The type `ReqHandlerFn`: the handler receives the request and the
response object it may fill. -/
abbrev ReqHandlerFn := MitmRequest → MitmResponse → MitmResponse

/-- The type `RespHandlerFn`. -/
abbrev RespHandlerFn := MitmResponse → Unit

/-- The process globals and the trace of effects. -/
structure World where
  g_running : Bool := true
  g_sendQueue : SendQueue := {}
  g_dataWs : WsDataClient := {}
  g_hooklibs : List HookLib := []
  g_requestHandlers : List (String × ReqHandlerFn) := []
  g_responseHandlers : List (String × RespHandlerFn) := []
  trace : List Event := []

/-- Appends effects to the trace. -/
def World.log (w : World) (es : List Event) : World :=
  { w with trace := w.trace ++ es }

/-- The lookup `std::map::find`: the mapped value, `none` for `end()`. -/
def mapFind {α : Type} (m : List (String × α)) (k : String) : Option α :=
  m.lookup k

/-- The assignment `m[k] = v` on a `std::map`. -/
def mapAssign {α : Type} (m : List (String × α)) (k : String) (v : α) :
    List (String × α) :=
  (k, v) :: m.filter (fun e => e.1 != k)

/-- The function `addRequestHandler`. -/
def addRequestHandler (name : String) (cb : ReqHandlerFn) (w : World) : World :=
  { w with g_requestHandlers := mapAssign w.g_requestHandlers name cb }

/-- The function `addResponseHandler`. -/
def addResponseHandler (name : String) (cb : RespHandlerFn) (w : World) : World :=
  { w with g_responseHandlers := mapAssign w.g_responseHandlers name cb }

/-! ## Data-channel client -/

/-- The method `WsDataClient::is_connected`. -/
def is_connected (w : World) : Bool :=
  w.g_dataWs.connected

/-- The method `WsDataClient::send_binary`; `ec` tells whether `client.send`
reports an error. -/
def send_binary (ec : Bool) (data : Bytes) (w : World) : Bool × World :=
  if !w.g_dataWs.connected then (false, w.log [.send_binary data false])
  else if ec then (false, w.log [.transport data, .send_binary data false])
  else (true, w.log [.transport data, .send_binary data true])

/-- The method `WsDataClient::connect`; `getConnectionEc` tells whether
`client.get_connection` reports an error.  The `connected` flag is written by
the open, close and fail callbacks only, never by `connect` itself. -/
def connect (uri : String) (getConnectionEc : Bool) (w : World) : Bool × World :=
  if getConnectionEc then (false, w.log [.connect uri false])
  else (true, w.log [.connect uri true])

/-! ## Hook chain and message router -/

/-- The `for (auto &h : g_hooklibs)` loop of `handleRequestBuffer`, run over the
hooks still to visit.  The flag tells whether the loop left the function with
`return` (a hook produced a buffer) or ran to its end. -/
def requestHookLoop (ec : Bool) (raw : Bytes) : List HookLib → World → Bool × World
  | [], w => (false, w)
  | h :: hs, w =>
    match h.handleReq with
    | some f =>
      let r := f raw
      let w1 := w.log [.hookReq h.path raw]
      if r.produced then (true, (send_binary ec r.buffer w1).2)
      else requestHookLoop ec raw hs w1
    | none => requestHookLoop ec raw hs w

/-- The `for (auto &h : g_hooklibs)` loop of `handleResponseBuffer`. -/
def responseHookLoop (ec : Bool) (raw : Bytes) : List HookLib → World → Bool × World
  | [], w => (false, w)
  | h :: hs, w =>
    match h.handleResp with
    | some f =>
      let r := f raw
      let w1 := w.log [.hookResp h.path raw]
      if r.produced then (true, (send_binary ec r.buffer w1).2)
      else responseHookLoop ec raw hs w1
    | none => responseHookLoop ec raw hs w

/-- The `switch (req.method())` of `handleRequestBuffer`. -/
def methodName : Method → String
  | .LOGIN => "LOGIN"
  | .RPC_REQUEST => "RPC_REQUEST"
  | _ => "UNSET"

/-- Part 2 of `handleRequestBuffer` (from `RotomProtos::MitmRequest req;` on):
decode, dispatch by method name, forward. -/
def requestRouter (proto : Proto) (ec : Bool) (raw : Bytes) (w : World) : World :=
  let w1 := w.log [.parseRequest raw]
  match proto.parseRequest raw (toInt32 raw.length) with
  | none => w1
  | some req =>
    let resp := MitmResponse.fresh
    match mapFind w1.g_requestHandlers (methodName req.method) with
    | some handler =>
      let resp1 := handler req resp
      let w2 := w1.log [.reqHandler (methodName req.method) req resp]
      if resp1.status ≠ Status.UNSET then
        (send_binary ec (proto.serializeResponse resp1) w2).2
      else w2
    | none => (send_binary ec (proto.serializeRequest req) w1).2

/-- The function `handleRequestBuffer`. -/
def handleRequestBuffer (proto : Proto) (ec : Bool) (raw : Bytes) (w : World) : World :=
  match requestHookLoop ec raw w.g_hooklibs w with
  | (true, w1) => w1
  | (false, w1) => requestRouter proto ec raw w1

/-- The part of `handleResponseBuffer` after the hook loop: decode, dispatch by
`std::to_string((int)resp.status())`, forward. -/
def responseRouter (proto : Proto) (ec : Bool) (raw : Bytes) (w : World) : World :=
  let w1 := w.log [.parseResponse raw]
  match proto.parseResponse raw (toInt32 raw.length) with
  | none => w1
  | some resp =>
    let key := toString (proto.statusValue resp.status)
    match mapFind w1.g_responseHandlers key with
    | some _handler => w1.log [.respHandler key resp]
    | none => (send_binary ec (proto.serializeResponse resp) w1).2

/-- The function `handleResponseBuffer`. -/
def handleResponseBuffer (proto : Proto) (ec : Bool) (raw : Bytes) (w : World) : World :=
  match responseHookLoop ec raw w.g_hooklibs w with
  | (true, w1) => w1
  | (false, w1) => responseRouter proto ec raw w1

/-- The LOGIN handler registered by `main`. -/
def loginHandler : ReqHandlerFn := fun req resp =>
  { resp with
    status := .SUCCESS
    login_response := some
      { worker_id := req.login_request.worker_id
        status := .AUTH_STATUS_GOT_AUTH_TOKEN
        supports_compression := false
        useragent := "rotom-worker-cpp/1.0" } }

/-- The RPC_REQUEST handler registered by `main`. -/
def rpcRequestHandler : ReqHandlerFn := fun _req resp =>
  { resp with
    status := .SUCCESS
    rpc_response := some { rpc_status := .RPC_STATUS_SUCCESS } }

/-- The two `addRequestHandler` calls of `main`. -/
def registerMainHandlers (w : World) : World :=
  addRequestHandler "RPC_REQUEST" rpcRequestHandler (addRequestHandler "LOGIN" loginHandler w)

/-! ## Sender worker -/

/-- What the environment decides during one worker iteration:
`closedInBetween`, the close or fail callback clears `connected` after the
`is_connected()` test and before `send_binary` takes the lock; `ec`, the
transport reports an error. -/
structure WorkerEnv where
  closedInBetween : Bool
  ec : Bool
deriving DecidableEq, Repr

/-- How one pass through the `while` of `senderWorker` ends. -/
inductive IterResult where
  | exited (w : World)
  | continued (w : World)
  | suspended

/-- One pass through `while (g_running.load())` of `senderWorker`. -/
def senderWorkerIter (env : WorkerEnv) (w : World) : IterResult :=
  if !w.g_running then .exited w
  else
    match w.g_sendQueue.wait_pop with
    | .waiting => .suspended
    | .noItem q => .exited { w with g_sendQueue := q }
    | .popped it q =>
      let w1 := { w with g_sendQueue := q }
      if !is_connected w1 then
        let w2 := { w1 with g_sendQueue := w1.g_sendQueue.push it }
        .continued (w2.log [.sleep_seconds 1])
      else
        let w2 := if env.closedInBetween then { w1 with g_dataWs := { connected := false } } else w1
        let r := send_binary env.ec it.payload w2
        if !r.1 then
          let w3 := { r.2 with g_sendQueue := r.2.g_sendQueue.push it }
          .continued (w3.log [.sleep_seconds 1])
        else
          .continued (r.2.log [.remove it.path, .sleep_millis 120])

/-! ## Connector -/

/-- The function `sendWelcome`. -/
def sendWelcome (proto : Proto) (cfg : Config) (ec : Bool) (w : World) : Bool × World :=
  let msg : WelcomeMessage :=
    { worker_id := cfg.general.device_name
      origin := "lab"
      version_code := 1
      version_name := "rotom-worker-cpp"
      useragent := "rotom-worker-cpp/1.0"
      device_id := cfg.general.device_name ++ "-device" }
  match proto.serializeWelcome msg with
  | none => (false, w)
  | some v => send_binary ec v w

/-- What the environment decides during one connector iteration: `callback`,
a websocket callback that ran since the previous iteration and wrote
`connected`; `getConnectionEc`, `get_connection` reports an error;
`openedInBetween`, the open callback runs after `connect` returned and before
`sendWelcome` sends; `ec`, the transport reports an error. -/
structure ConnectorEnv where
  callback : Option Bool
  getConnectionEc : Bool
  openedInBetween : Bool
  ec : Bool
deriving DecidableEq, Repr

/-- One pass through the `while` of the connector thread of `main`, from the
`is_connected()` test on; the local `backoff` is threaded through. -/
def connectorIter (proto : Proto) (cfg : Config) (env : ConnectorEnv)
    (backoff : Int) (w : World) : Int × World :=
  let w0 := match env.callback with
    | some b => { w with g_dataWs := { connected := b } }
    | none => w
  if !is_connected w0 then
    let c := connect (cfg.rotom.worker_endpoint ++ "/") env.getConnectionEc w0
    if !c.1 then
      let w1 := c.2.log [.sleep_seconds backoff]
      (if backoff < 30 then backoff * 2 else backoff, w1)
    else
      let w1 := if env.openedInBetween then { c.2 with g_dataWs := { connected := true } } else c.2
      let s := sendWelcome proto cfg env.ec w1
      (backoff, s.2.log [.sleep_seconds 2])
  else (backoff, w0.log [.sleep_seconds 2])

/-- The connector thread: `int backoff = 1;` is the initial argument, one
environment per pass, the loop ends when `g_running` is false. -/
def connectorLoop (proto : Proto) (cfg : Config) :
    List ConnectorEnv → Int → World → Int × World
  | [], backoff, w => (backoff, w)
  | env :: envs, backoff, w =>
    if !w.g_running then (backoff, w)
    else
      let r := connectorIter proto cfg env backoff w
      connectorLoop proto cfg envs r.1 r.2

/-- The connector thread from its start. -/
def connector (proto : Proto) (cfg : Config) (envs : List ConnectorEnv) (w : World) :
    Int × World :=
  connectorLoop proto cfg envs 1 w

/-- The arguments of the `sleep_for(std::chrono::seconds(..))` calls in a
trace. -/
def sleepsSeconds : List Event → List Int
  | [] => []
  | .sleep_seconds n :: es => n :: sleepsSeconds es
  | _ :: es => sleepsSeconds es

/-- The payloads of the `send_binary` calls in a trace. -/
def sendCalls : List Event → List Bytes
  | [] => []
  | .send_binary d _ :: es => d :: sendCalls es
  | _ :: es => sendCalls es

/-- Whether an event is a request or response handler invocation. -/
def Event.isHandler : Event → Bool
  | .reqHandler _ _ _ => true
  | .respHandler _ _ => true
  | _ => false

/-- Whether an event is an envelope decode. -/
def Event.isParse : Event → Bool
  | .parseRequest _ => true
  | .parseResponse _ => true
  | _ => false

/-- Whether an event is a hook invocation. -/
def Event.isHook : Event → Bool
  | .hookReq _ _ => true
  | .hookResp _ _ => true
  | _ => false

/-- Whether an event is an `fs::remove`. -/
def Event.isRemove : Event → Bool
  | .remove _ => true
  | _ => false

/-! ## A codec instance

The codec is a parameter of the embedding.  `referenceProto` is one instance
that satisfies the round-trip law: an envelope is numbered through `Encodable`
and the number is written in base 256, least significant byte first. -/

/-- Base-256 digits of a number, least significant first. -/
def natToBytes (n : Nat) : Bytes :=
  (Nat.digits 256 n).map (fun d => Fin.ofNat d)

/-- The number a byte string denotes in base 256. -/
def bytesToNat (b : Bytes) : Nat :=
  Nat.ofDigits 256 (b.map (fun d => d.val))

/-- Strings as lists of code points. -/
instance instEncodableString : Encodable String :=
  Encodable.ofLeftInjection (fun s => s.toList.map Char.toNat)
    (fun l => some (String.mk (l.map Char.ofNat)))
    (by intro s; simp [List.map_map, Function.comp_def])

/-- Numbering of `Method`. -/
instance instEncodableMethod : Encodable Method :=
  Encodable.ofLeftInjection
    (fun m => match m with
      | .UNSET => (Sum.inl 0 : ℕ ⊕ ℤ)
      | .LOGIN => Sum.inl 1
      | .RPC_REQUEST => Sum.inl 2
      | .other v => Sum.inr v)
    (fun c => match c with
      | Sum.inl 0 => some Method.UNSET
      | Sum.inl 1 => some Method.LOGIN
      | Sum.inl 2 => some Method.RPC_REQUEST
      | Sum.inl _ => none
      | Sum.inr v => some (Method.other v))
    (by intro m; cases m <;> rfl)

/-- Numbering of `Status`. -/
instance instEncodableStatus : Encodable Status :=
  Encodable.ofLeftInjection
    (fun m => match m with
      | .UNSET => (Sum.inl 0 : ℕ ⊕ ℤ)
      | .SUCCESS => Sum.inl 1
      | .other v => Sum.inr v)
    (fun c => match c with
      | Sum.inl 0 => some Status.UNSET
      | Sum.inl 1 => some Status.SUCCESS
      | Sum.inl _ => none
      | Sum.inr v => some (Status.other v))
    (by intro m; cases m <;> rfl)

/-- Numbering of `AuthStatus`. -/
instance instEncodableAuthStatus : Encodable AuthStatus :=
  Encodable.ofLeftInjection
    (fun m => match m with
      | .AUTH_STATUS_GOT_AUTH_TOKEN => (none : Option ℤ)
      | .other v => some v)
    (fun c => match c with
      | none => some AuthStatus.AUTH_STATUS_GOT_AUTH_TOKEN
      | some v => some (AuthStatus.other v))
    (by intro m; cases m <;> rfl)

/-- Numbering of `RpcStatus`. -/
instance instEncodableRpcStatus : Encodable RpcStatus :=
  Encodable.ofLeftInjection
    (fun m => match m with
      | .RPC_STATUS_SUCCESS => (none : Option ℤ)
      | .other v => some v)
    (fun c => match c with
      | none => some RpcStatus.RPC_STATUS_SUCCESS
      | some v => some (RpcStatus.other v))
    (by intro m; cases m <;> rfl)

/-- Numbering of `MitmRequest`. -/
instance instEncodableMitmRequest : Encodable MitmRequest :=
  Encodable.ofLeftInjection
    (fun r => (r.method, r.login_request.worker_id, r.rpc_request.request))
    (fun t => some
      { method := t.1, login_request := { worker_id := t.2.1 }, rpc_request := { request := t.2.2 } })
    (by intro r; rfl)

/-- Numbering of `LoginResponse`. -/
instance instEncodableLoginResponse : Encodable LoginResponse :=
  Encodable.ofLeftInjection
    (fun r => (r.worker_id, r.status, r.supports_compression, r.useragent))
    (fun t => some
      { worker_id := t.1, status := t.2.1, supports_compression := t.2.2.1, useragent := t.2.2.2 })
    (by intro r; rfl)

/-- Numbering of `RpcResponse`. -/
instance instEncodableRpcResponse : Encodable RpcResponse :=
  Encodable.ofLeftInjection (fun r => r.rpc_status) (fun t => some { rpc_status := t })
    (by intro r; rfl)

/-- Numbering of `MitmResponse`. -/
instance instEncodableMitmResponse : Encodable MitmResponse :=
  Encodable.ofLeftInjection
    (fun r => (r.status, r.login_response, r.rpc_response))
    (fun t => some { status := t.1, login_response := t.2.1, rpc_response := t.2.2 })
    (by intro r; rfl)

/-- Numbering of `WelcomeMessage`. -/
instance instEncodableWelcomeMessage : Encodable WelcomeMessage :=
  Encodable.ofLeftInjection
    (fun r => (r.worker_id, r.origin, r.version_code, r.version_name, r.useragent, r.device_id))
    (fun t => some
      { worker_id := t.1, origin := t.2.1, version_code := t.2.2.1, version_name := t.2.2.2.1,
        useragent := t.2.2.2.2.1, device_id := t.2.2.2.2.2 })
    (by intro r; rfl)

/-- Decoding of the first `size` bytes of `data`; fails on a negative size, on
a size beyond the buffer and on a number that denotes no envelope. -/
def decodeFirst {α : Type} [Encodable α] (data : Bytes) (size : Int) : Option α :=
  if size < 0 ∨ (data.length : Int) < size then none
  else Encodable.decode (bytesToNat (data.take size.toNat))

/-- A codec instance that satisfies the round-trip law. -/
def referenceProto : Proto where
  parseRequest := decodeFirst
  serializeRequest := fun r => natToBytes (Encodable.encode r)
  parseResponse := decodeFirst
  serializeResponse := fun r => natToBytes (Encodable.encode r)
  serializeWelcome := fun m => some (natToBytes (Encodable.encode m))
  statusValue := fun s => match s with
    | .UNSET => 0
    | .SUCCESS => 200
    | .other v => v

/-! ## Example hooks and worlds -/

/-- A request hook that reports success and leaves `out` null. -/
def silentHook : HookLib :=
  { handleReq := some (fun _ => { rc := 0, out := none, out_len := 0 })
    handleResp := some (fun _ => { rc := 0, out := none, out_len := 0 })
    path := "/data/local/tmp/libsilent.so", loaded := true }

/-- A hook that reports success and returns a copy of its input. -/
def echoHook : HookLib :=
  { handleReq := some (fun raw => { rc := 0, out := some raw, out_len := raw.length })
    handleResp := some (fun raw => { rc := 0, out := some raw, out_len := raw.length })
    path := "/data/local/tmp/libecho.so", loaded := true }

/-- A hook that reports an error. -/
def failingHook : HookLib :=
  { handleReq := some (fun _ => { rc := -1, out := none, out_len := 0 })
    handleResp := some (fun _ => { rc := -1, out := none, out_len := 0 })
    path := "/data/local/tmp/libfailing.so", loaded := true }

/-- A library that exports neither entry point. -/
def bareHook : HookLib :=
  { path := "/data/local/tmp/libbare.so", loaded := true }

/-- The world after the start-up of `main` with the data channel connected and
the given hook libraries loaded. -/
def startedWorld (hooks : List HookLib) (connected : Bool) : World :=
  registerMainHandlers { g_hooklibs := hooks, g_dataWs := { connected := connected } }

/-- An intake file queued for delivery. -/
def itemA : SendItem := { path := "/data/local/tmp/rotom_inbox/a.bin", payload := [1, 2] }

/-- A second intake file queued for delivery. -/
def itemB : SendItem := { path := "/data/local/tmp/rotom_inbox/b.bin", payload := [3] }

/-- The started world with `itemA` and `itemB` queued in that order. -/
def queuedWorld (connected : Bool) : World :=
  { startedWorld [] connected with g_sendQueue := { q_ := [itemA, itemB] } }

/-! ## Specification vocabulary -/

/-- Selects the request or the response side of the dispatcher. -/
inductive Direction where
  | request
  | response
deriving DecidableEq, Repr

/-- The entry point of a hook library for a direction (`h->handleReq` or
`h->handleResp`); `none` when the library is not capable. -/
def HookLib.capability (h : HookLib) : Direction → Option (Bytes → HookResult)
  | .request => h.handleReq
  | .response => h.handleResp

/-- The trace event of a hook invocation. -/
def hookEvent : Direction → String → Bytes → Event
  | .request, path, raw => .hookReq path raw
  | .response, path, raw => .hookResp path raw

/-- The function `handleRequestBuffer` or `handleResponseBuffer`. -/
def handleBuffer : Direction → Proto → Bool → Bytes → World → World
  | .request => handleRequestBuffer
  | .response => handleResponseBuffer

/-- The Message Router part of a dispatcher. -/
def router : Direction → Proto → Bool → Bytes → World → World
  | .request => requestRouter
  | .response => responseRouter

/-- The hook loop of a dispatcher. -/
def hookLoop : Direction → Bool → Bytes → List HookLib → World → Bool × World
  | .request => requestHookLoop
  | .response => responseHookLoop

/-- A dispatcher run against a given list of hooks instead of the whole of
`g_hooklibs`: the hook loop over `hs`, then the router unless a hook
returned. -/
def dispatchFrom (d : Direction) (proto : Proto) (ec : Bool) (raw : Bytes)
    (hs : List HookLib) (w : World) : World :=
  match hookLoop d ec raw hs w with
  | (true, w1) => w1
  | (false, w1) => router d proto ec raw w1

/-- Whether a hook, given the buffer, takes the `rc == 0 && out && out_len > 0`
branch. -/
def HookLib.consumes (h : HookLib) (d : Direction) (raw : Bytes) : Bool :=
  match h.capability d with
  | some f => (f raw).produced
  | none => false

/-- The invocation events of the capable hooks of a list, in order. -/
def hookCalls (d : Direction) (raw : Bytes) : List HookLib → List Event
  | [] => []
  | h :: hs =>
    match h.capability d with
    | some _ => hookEvent d h.path raw :: hookCalls d raw hs
    | none => hookCalls d raw hs

/-- The events one `send_binary` call appends. -/
def sendEvents (connected ec : Bool) (data : Bytes) : List Event :=
  if !connected then [.send_binary data false]
  else if ec then [.transport data, .send_binary data false]
  else [.transport data, .send_binary data true]

/-! ## Worker outcomes -/

/-- Outcome (a) of a worker iteration on a popped item: a `send_binary` call on
the payload returned true, `fs::remove` ran on the source path, and the queue
is what was left after the pop.  A `remove` event records the call, whatever
the file system answers. -/
def DeliveredThenDeleted (it : SendItem) (rest new_q : List SendItem)
    (new : List Event) : Prop :=
  Event.send_binary it.payload true ∈ new ∧ Event.remove it.path ∈ new ∧ new_q = rest

/-- Outcome (b) of a worker iteration on a popped item: no `fs::remove` ran
and the item is at the back of the queue with its path and payload. -/
def Requeued (it : SendItem) (rest new_q : List SendItem) (new : List Event) : Prop :=
  (∀ p, Event.remove p ∉ new) ∧ new_q = rest ++ [it]

/-! ## Connector vocabulary -/

/-- The value of the connector's `backoff` after `k` failed attempts in a row
from its start. -/
def backoffAfter (k : Nat) : Int :=
  if k < 5 then 2 ^ k else 32

/-- A pass in which `get_connection` fails and no callback intervenes. -/
def failedPass : ConnectorEnv :=
  { callback := none, getConnectionEc := true, openedInBetween := false, ec := false }

/-- A pass in which `connect` succeeds; the open callback has not run yet when
the welcome message is sent. -/
def connectPass : ConnectorEnv :=
  { callback := none, getConnectionEc := false, openedInBetween := false, ec := false }

/-- A pass before which the open callback ran. -/
def openedPass : ConnectorEnv :=
  { callback := some true, getConnectionEc := false, openedInBetween := false, ec := false }

/-- A pass before which the close callback ran and in which `get_connection`
fails. -/
def droppedFailedPass : ConnectorEnv :=
  { callback := some false, getConnectionEc := true, openedInBetween := false, ec := false }

/-! ## Send queue as a sequence of calls -/

/-- A call on the send queue. -/
inductive QueueOp where
  | push (it : SendItem)
  | wait_pop
  | close
  | size
deriving DecidableEq, Repr

/-- What a call on the send queue gives back: nothing (`push`, `close`), the
item moved out by a `wait_pop` that returned true, a `wait_pop` that returned
false, a `wait_pop` left suspended on the condition variable, or the value of
`size()`. -/
inductive QueueRet where
  | done
  | popped (it : SendItem)
  | noItem
  | waiting
  | size (n : Nat)
deriving DecidableEq, Repr

/-- One call on the queue: the state after it and what it gives back.  A
suspended `wait_pop` leaves the state as it is. -/
def SendQueue.call (s : SendQueue) : QueueOp → SendQueue × QueueRet
  | .push it => (s.push it, .done)
  | .wait_pop =>
    match s.wait_pop with
    | .popped it s2 => (s2, .popped it)
    | .noItem s2 => (s2, .noItem)
    | .waiting => (s, .waiting)
  | .close => (s.close, .done)
  | .size => (s, .size s.size)

/-- A sequence of calls on the queue, in the order the mutex serialises them. -/
def SendQueue.run (s : SendQueue) : List QueueOp → SendQueue × List QueueRet
  | [] => (s, [])
  | op :: ops =>
    let r := s.call op
    let rs := SendQueue.run r.1 ops
    (rs.1, r.2 :: rs.2)

/-- The items handed to `push` in a sequence of calls, in order. -/
def pushedItems : List QueueOp → List SendItem
  | [] => []
  | .push it :: ops => it :: pushedItems ops
  | _ :: ops => pushedItems ops

/-- The items the successful `wait_pop` calls gave back, in order. -/
def poppedItems : List QueueRet → List SendItem
  | [] => []
  | .popped it :: rs => it :: poppedItems rs
  | _ :: rs => poppedItems rs

/-! ## Scanner -/

/-- What one step of `fs::directory_iterator` and the queries on the entry
give: `throws`, a filesystem query on the entry raises an exception;
`is_regular_file`; `file_size`, the `std::uintmax_t` that `fs::file_size`
returns; `is_open`, whether the `std::ifstream` opened; `contents`, the bytes
the stream then delivers. -/
structure DirEntry where
  path : String
  throws : Bool := false
  is_regular_file : Bool := true
  file_size : Nat
  is_open : Bool := true
  contents : Bytes
deriving DecidableEq, Repr

/-- The default argument `int minSize = 512` of `scanDirLoop`. -/
def defaultMinSize : Int := 512

/-- The `for (auto &p : fs::directory_iterator(dir))` loop of `scanDirLoop`
over the entries still to visit.  An exception leaves the loop through the
`catch` around it. -/
def scanEntries (minSize : Int) : List DirEntry → World → World
  | [], w => w
  | p :: ps, w =>
    if p.throws then w
    else if !p.is_regular_file then scanEntries minSize ps w
    else if toInt32 p.file_size < minSize then scanEntries minSize ps w
    else if !p.is_open then scanEntries minSize ps w
    else
      scanEntries minSize ps
        { w with g_sendQueue := w.g_sendQueue.push { path := p.path, payload := p.contents } }

/-- The fifteen one-second sleeps that end a pass of `scanDirLoop`. -/
def scanSleeps : List Event :=
  List.replicate 15 (Event.sleep_seconds 1)

/-- One pass through `while (g_running.load())` of `scanDirLoop`: the
directory iteration over the entries found in this pass, then the sleeps.
The `create_directories` call before the loop is not part of a pass. -/
def scanDirLoopIter (minSize : Int) (entries : List DirEntry) (w : World) : World :=
  if !w.g_running then w
  else (scanEntries minSize entries w).log scanSleeps

/-! ## Configuration file -/

/-- Modelled from the spec: a JSON value as `nlohmann::json` of `json.hpp`
holds it (header missing from the sources).  `number_float` carries the value
truncated toward zero, which is all `get<int>()` can observe. -/
inductive Json where
  | null
  | boolean (b : Bool)
  | number_integer (n : Int)
  | number_float (truncated : Int)
  | string (s : String)
  | array (xs : List Json)
  | object (members : List (String × Json))

/-- Modelled from the spec: `json::contains(key)` of `json.hpp` (header
missing): true when the value is an object that has the key. -/
def Json.contains : Json → String → Bool
  | .object members, key => (members.lookup key).isSome
  | _, _ => false

/-- Modelled from the spec: `json::operator[](key)` of `json.hpp` (header
missing) on a key that `contains` reported. -/
def Json.get : Json → String → Json
  | .object members, key => (members.lookup key).getD .null
  | _, _ => .null

/-- Modelled from the spec: `get<std::string>()` of `json.hpp` (header
missing); `none` stands for the `type_error` it throws on a value that is not
a string. -/
def Json.getString : Json → Option String
  | .string s => some s
  | _ => none

/-- Modelled from the spec: `get<bool>()` of `json.hpp` (header missing);
`none` stands for the `type_error` on a value that is not a boolean. -/
def Json.getBool : Json → Option Bool
  | .boolean b => some b
  | _ => none

/-- Conversion of a 64-bit integer to `int`. -/
def wrapInt32 (n : Int) : Int :=
  (n + 2 ^ 31) % 2 ^ 32 - 2 ^ 31

/-- Modelled from the spec: `get<int>()` of `json.hpp` (header missing):
numbers and booleans convert by `static_cast<int>`, every other value throws
`type_error` (`none`). -/
def Json.getInt : Json → Option Int
  | .number_integer n => some (wrapInt32 n)
  | .number_float t => some (wrapInt32 t)
  | .boolean b => some (if b then 1 else 0)
  | _ => none

/-- What `readConfig` meets at the path: the stream does not open, `f >> j`
throws `parse_error`, or the text parses to a JSON value. -/
inductive ConfigFile where
  | cannotOpen
  | malformed
  | parsed (j : Json)

/-- The state inside the `try` block of `readConfig`: the `cfg` built so far
and whether an exception has been thrown. -/
structure TryState where
  cfg : Config
  thrown : Bool

/-- A statement `if (r.contains(key)) cfg.X = r[key].get<std::string>();`. -/
def assignString (r : Json) (key : String) (set : Config → String → Config)
    (st : TryState) : TryState :=
  if st.thrown then st
  else if r.contains key then
    match (r.get key).getString with
    | some v => { st with cfg := set st.cfg v }
    | none => { st with thrown := true }
  else st

/-- A statement `if (r.contains(key)) cfg.X = r[key].get<bool>();`. -/
def assignBool (r : Json) (key : String) (set : Config → Bool → Config)
    (st : TryState) : TryState :=
  if st.thrown then st
  else if r.contains key then
    match (r.get key).getBool with
    | some v => { st with cfg := set st.cfg v }
    | none => { st with thrown := true }
  else st

/-- A statement `if (r.contains(key)) cfg.X = r[key].get<int>();`. -/
def assignInt (r : Json) (key : String) (set : Config → Int → Config)
    (st : TryState) : TryState :=
  if st.thrown then st
  else if r.contains key then
    match (r.get key).getInt with
    | some v => { st with cfg := set st.cfg v }
    | none => { st with thrown := true }
  else st

/-- The block `if (j.contains("rotom")) { ... }` of `readConfig`. -/
def readRotom (j : Json) (st : TryState) : TryState :=
  if st.thrown then st
  else if j.contains "rotom" then
    let r := j.get "rotom"
    assignBool r "use_compression"
        (fun c v => { c with rotom := { c.rotom with use_compression := v } })
      (assignString r "secret" (fun c v => { c with rotom := { c.rotom with secret := v } })
        (assignString r "device_endpoint"
            (fun c v => { c with rotom := { c.rotom with device_endpoint := v } })
          (assignString r "worker_endpoint"
            (fun c v => { c with rotom := { c.rotom with worker_endpoint := v } }) st)))
  else st

/-- The block `if (j.contains("general")) { ... }` of `readConfig`. -/
def readGeneral (j : Json) (st : TryState) : TryState :=
  if st.thrown then st
  else if j.contains "general" then
    let g := j.get "general"
    assignString g "scan_dir"
        (fun c v => { c with general := { c.general with scan_dir := v } })
      (assignString g "dns_server"
          (fun c v => { c with general := { c.general with dns_server := v } })
        (assignInt g "workers" (fun c v => { c with general := { c.general with workers := v } })
          (assignString g "device_name"
            (fun c v => { c with general := { c.general with device_name := v } }) st)))
  else st

/-- The block `if (j.contains("tuning")) { ... }` of `readConfig`. -/
def readTuning (j : Json) (st : TryState) : TryState :=
  if st.thrown then st
  else if j.contains "tuning" then
    let t := j.get "tuning"
    assignInt t "worker_spawn_delay_ms" (fun c v => { c with worker_spawn_delay_ms := v }) st
  else st

/-- The function `readConfig`: `Config cfg;` starts from the defaults, the
`catch` only logs, and `return cfg;` hands back whatever was built. -/
def readConfig (file : ConfigFile) : Config :=
  match file with
  | .cannotOpen => {}
  | .malformed => {}
  | .parsed j => (readTuning j (readGeneral j (readRotom j { cfg := {}, thrown := false }))).cfg

/-! ## Shim library (`src/cpp/shim/libshim_niantic.cpp`) -/

/-- The type `real_handle_fn`: the resolved entry point, as a function of the
`in_len` bytes at `in`, giving its return code and what it left in `*out` and
`*out_len`. -/
abbrev real_handle_fn := Bytes → HookResult

/-- The echo fallback of the shim `HandleRequest`: `malloc(in_len)`, `memcpy`,
`*out = buf; *out_len = in_len; return 0;`, or `-1` with a null output when
`malloc` fails. -/
def Shim.echo (mallocOk : Bool) (data : Bytes) (in_len : Nat) : HookResult :=
  if mallocOk then { rc := 0, out := some (data.take in_len), out_len := in_len }
  else { rc := -1, out := none, out_len := 0 }

/-- The exported function `HandleRequest` of the shim.  `input` is the `in`
pointer (`none` is null, `some data` the memory it points to). -/
def Shim.HandleRequest (real_HandleRequest : Option real_handle_fn) (mallocOk : Bool)
    (input : Option Bytes) (in_len : Nat) : HookResult :=
  match input with
  | none => { rc := 0, out := none, out_len := 0 }
  | some data =>
    if in_len = 0 then { rc := 0, out := none, out_len := 0 }
    else
      match real_HandleRequest with
      | some real =>
        let r := real (data.take in_len)
        if r.rc = 0 ∧ r.out.isSome = true ∧ r.out_len > 0 then
          { rc := 0, out := r.out, out_len := r.out_len }
        else if r.rc = 0 then { rc := 0, out := none, out_len := 0 }
        else Shim.echo mallocOk data in_len
      | none => Shim.echo mallocOk data in_len

/-- The exported function `HandleResponse` of the shim. -/
def Shim.HandleResponse (real_HandleResponse : Option real_handle_fn)
    (input : Option Bytes) (in_len : Nat) : HookResult :=
  match input with
  | none => { rc := 0, out := none, out_len := 0 }
  | some data =>
    if in_len = 0 then { rc := 0, out := none, out_len := 0 }
    else
      match real_HandleResponse with
      | some real =>
        let r := real (data.take in_len)
        if r.rc = 0 ∧ r.out.isSome = true ∧ r.out_len > 0 then
          { rc := 0, out := r.out, out_len := r.out_len }
        else { rc := 0, out := none, out_len := 0 }
      | none => { rc := 0, out := none, out_len := 0 }

/-! ## Router vocabulary -/

/-- The envelope decode of a dispatcher fails on the buffer. -/
def decodeFails (proto : Proto) : Direction → Bytes → Prop
  | .request, raw => proto.parseRequest raw (toInt32 raw.length) = none
  | .response, raw => proto.parseResponse raw (toInt32 raw.length) = none

/-- The trace event of the envelope decode of a dispatcher. -/
def parseEvent : Direction → Bytes → Event
  | .request, raw => .parseRequest raw
  | .response, raw => .parseResponse raw

/-- The key under which `handleResponseBuffer` looks a Response up:
`std::to_string((int)resp.status())`. -/
def responseKey (proto : Proto) (resp : MitmResponse) : String :=
  toString (proto.statusValue resp.status)

/-! ## Scanner and connector vocabulary -/

/-- The delivery item `scanDirLoop` builds for a directory entry. -/
def DirEntry.toItem (p : DirEntry) : SendItem :=
  { path := p.path, payload := p.contents }

/-- Whether a pass of `scanDirLoop` pushes the entry: a regular file whose
size, seen through `(int)sz`, is not below `minSize`, and whose stream
opened. -/
def DirEntry.enqueued (minSize : Int) (p : DirEntry) : Bool :=
  p.is_regular_file && !decide (toInt32 p.file_size < minSize) && p.is_open

/-- The message `sendWelcome` builds from the configuration. -/
def welcomeOf (cfg : Config) : WelcomeMessage :=
  { worker_id := cfg.general.device_name
    origin := "lab"
    version_code := 1
    version_name := "rotom-worker-cpp"
    useragent := "rotom-worker-cpp/1.0"
    device_id := cfg.general.device_name ++ "-device" }

/-- The events `sendWelcome` appends when the state is not Connected: the
refused `send_binary` call, or nothing when serialisation fails. -/
def refusedWelcome (proto : Proto) (cfg : Config) : List Event :=
  match proto.serializeWelcome (welcomeOf cfg) with
  | some v => [Event.send_binary v false]
  | none => []

/-- A configuration file whose `rotom.secret` is a number: `worker_endpoint`
is read first, then `get<std::string>()` throws on the secret. -/
def configWithNumericSecret : Json :=
  .object [("rotom", .object [("worker_endpoint", .string "ws://10.0.0.5:9001"),
    ("secret", .number_integer 7)])]

/-- File contents of a given length, for examples. -/
def sampleContents (n : Nat) : Bytes :=
  List.replicate n 7

/-- An intake directory with one 600-byte file and one 10-byte file. -/
def exampleIntake : List DirEntry :=
  [{ path := "/data/local/tmp/rotom_inbox/big.bin", file_size := 600,
      contents := sampleContents 600 },
    { path := "/data/local/tmp/rotom_inbox/small.bin", file_size := 10,
      contents := sampleContents 10 }]

/-- The entries a pass of `scanDirLoop` reaches: those listed before the first
entry on which a filesystem query raises an exception.  The `try` encloses the
whole `for` loop, so the exception ends the pass. -/
def scanReached (entries : List DirEntry) : List DirEntry :=
  entries.takeWhile (fun p => !p.throws)

/-- An intake directory in which an entry whose query raises an exception (a
symbolic link that points to itself, say) is listed between two 600-byte
files. -/
def blockedIntake : List DirEntry :=
  [{ path := "/data/local/tmp/rotom_inbox/early.bin", file_size := 600,
      contents := sampleContents 600 },
    { path := "/data/local/tmp/rotom_inbox/loop", throws := true, file_size := 0,
      contents := [] },
    { path := "/data/local/tmp/rotom_inbox/late.bin", file_size := 600,
      contents := sampleContents 600 }]

/-! # Lemmas -/

/-! ## Basic facts -/

theorem World.log_log (w : World) (a b : List Event) :
    (w.log a).log b = w.log (a ++ b) := by
  simp [World.log, List.append_assoc]

theorem World.log_nil (w : World) : w.log [] = w := by
  simp [World.log]

theorem send_binary_snd (ec : Bool) (data : Bytes) (w : World) :
    (send_binary ec data w).2 = w.log (sendEvents w.g_dataWs.connected ec data) := by
  unfold send_binary sendEvents
  cases w.g_dataWs.connected <;> cases ec <;> simp

theorem send_binary_fst (ec : Bool) (data : Bytes) (w : World) :
    (send_binary ec data w).1 = (w.g_dataWs.connected && !ec) := by
  unfold send_binary
  cases w.g_dataWs.connected <;> cases ec <;> simp

theorem sendCalls_append (a b : List Event) :
    sendCalls (a ++ b) = sendCalls a ++ sendCalls b := by
  induction a with
  | nil => rfl
  | cons e es ih => cases e <;> simp [sendCalls, ih]

theorem sendCalls_sendEvents (c ec : Bool) (data : Bytes) :
    sendCalls (sendEvents c ec data) = [data] := by
  cases c <;> cases ec <;> rfl

/-! ## Hook chain -/

@[simp] theorem World.log_g_dataWs (w : World) (es : List Event) :
    (w.log es).g_dataWs = w.g_dataWs := rfl

@[simp] theorem World.log_trace (w : World) (es : List Event) :
    (w.log es).trace = w.trace ++ es := rfl

@[simp] theorem World.log_g_requestHandlers (w : World) (es : List Event) :
    (w.log es).g_requestHandlers = w.g_requestHandlers := rfl

@[simp] theorem World.log_g_responseHandlers (w : World) (es : List Event) :
    (w.log es).g_responseHandlers = w.g_responseHandlers := rfl

@[simp] theorem World.log_g_sendQueue (w : World) (es : List Event) :
    (w.log es).g_sendQueue = w.g_sendQueue := rfl

@[simp] theorem World.log_g_hooklibs (w : World) (es : List Event) :
    (w.log es).g_hooklibs = w.g_hooklibs := rfl

theorem handleBuffer_eq_dispatchFrom (d : Direction) (proto : Proto) (ec : Bool) (raw : Bytes)
    (w : World) : handleBuffer d proto ec raw w = dispatchFrom d proto ec raw w.g_hooklibs w := by
  cases d <;> rfl

/-- A hook that does not take the success branch only leaves its invocation in
the trace; the loop goes on with the next hook. -/
theorem hookLoop_cons_of_not_consumes (d : Direction) (ec : Bool) (raw : Bytes) (h : HookLib)
    (hs : List HookLib) (w : World) (hc : h.consumes d raw = false) :
    hookLoop d ec raw (h :: hs) w = hookLoop d ec raw hs (w.log (hookCalls d raw [h])) := by
  cases d
  · simp only [HookLib.consumes, HookLib.capability] at hc
    simp only [hookLoop, requestHookLoop, hookCalls, HookLib.capability]
    cases hf : h.handleReq with
    | none => simp [World.log_nil]
    | some f => rw [hf] at hc; simp only at hc; simp [hc, hookEvent]
  · simp only [HookLib.consumes, HookLib.capability] at hc
    simp only [hookLoop, responseHookLoop, hookCalls, HookLib.capability]
    cases hf : h.handleResp with
    | none => simp [World.log_nil]
    | some f => rw [hf] at hc; simp only at hc; simp [hc, hookEvent]

theorem hookCalls_cons (d : Direction) (raw : Bytes) (h : HookLib) (hs : List HookLib) :
    hookCalls d raw (h :: hs) = hookCalls d raw [h] ++ hookCalls d raw hs := by
  simp only [hookCalls]
  cases h.capability d <;> simp

theorem hookCalls_append (d : Direction) (raw : Bytes) (a b : List HookLib) :
    hookCalls d raw (a ++ b) = hookCalls d raw a ++ hookCalls d raw b := by
  induction a with
  | nil => rfl
  | cons h hs ih =>
    rw [List.cons_append, hookCalls_cons, ih, hookCalls_cons d raw h hs, List.append_assoc]

/-- The hook loop over a list whose hooks all decline, followed by more hooks. -/
theorem hookLoop_append_of_not_consumes (d : Direction) (ec : Bool) (raw : Bytes)
    (pre hs : List HookLib) (w : World) (hpre : ∀ p ∈ pre, p.consumes d raw = false) :
    hookLoop d ec raw (pre ++ hs) w = hookLoop d ec raw hs (w.log (hookCalls d raw pre)) := by
  induction pre generalizing w with
  | nil => simp [hookCalls, World.log_nil]
  | cons p ps ih =>
    rw [List.cons_append, hookLoop_cons_of_not_consumes d ec raw p _ w (hpre p (by simp)),
      ih _ (fun q hq => hpre q (by simp [hq])), World.log_log, ← hookCalls_cons]

theorem hookLoop_nil (d : Direction) (ec : Bool) (raw : Bytes) (w : World) :
    hookLoop d ec raw [] w = (false, w) := by
  cases d <;> rfl

/-- When no hook takes the success branch the loop runs to its end. -/
theorem hookLoop_of_not_consumes (d : Direction) (ec : Bool) (raw : Bytes)
    (hs : List HookLib) (w : World) (hall : ∀ p ∈ hs, p.consumes d raw = false) :
    hookLoop d ec raw hs w = (false, w.log (hookCalls d raw hs)) := by
  have := hookLoop_append_of_not_consumes d ec raw hs [] w hall
  rwa [List.append_nil, hookLoop_nil] at this

/-- A hook that takes the success branch: its buffer is sent and the loop
returns, whatever follows in the list. -/
theorem hookLoop_cons_of_produced (d : Direction) (ec : Bool) (raw : Bytes) (h : HookLib)
    (f : Bytes → HookResult) (hs : List HookLib) (w : World)
    (hcap : h.capability d = some f) (hp : (f raw).produced = true) :
    hookLoop d ec raw (h :: hs) w =
      (true, w.log (hookEvent d h.path raw :: sendEvents w.g_dataWs.connected ec (f raw).buffer)) := by
  cases d
  · simp only [HookLib.capability] at hcap
    simp only [hookLoop, requestHookLoop, hcap, hp, if_true, send_binary_snd, World.log_log,
      World.log_g_dataWs, hookEvent]
    rfl
  · simp only [HookLib.capability] at hcap
    simp only [hookLoop, responseHookLoop, hcap, hp, if_true, send_binary_snd, World.log_log,
      World.log_g_dataWs, hookEvent]
    rfl

/-- The dispatcher when the first hook to take the success branch sits after
`pre`. -/
theorem dispatchFrom_of_produced (d : Direction) (proto : Proto) (ec : Bool) (raw : Bytes)
    (pre post : List HookLib) (h : HookLib) (f : Bytes → HookResult) (w : World)
    (hpre : ∀ p ∈ pre, p.consumes d raw = false)
    (hcap : h.capability d = some f) (hp : (f raw).produced = true) :
    dispatchFrom d proto ec raw (pre ++ h :: post) w =
      w.log (hookCalls d raw pre ++ hookEvent d h.path raw ::
        sendEvents w.g_dataWs.connected ec (f raw).buffer) := by
  unfold dispatchFrom
  rw [hookLoop_append_of_not_consumes d ec raw pre _ w hpre,
    hookLoop_cons_of_produced d ec raw h f post _ hcap hp]
  simp [World.log_log]

/-- The dispatcher when no hook takes the success branch. -/
theorem dispatchFrom_of_not_consumes (d : Direction) (proto : Proto) (ec : Bool) (raw : Bytes)
    (hs : List HookLib) (w : World) (hall : ∀ p ∈ hs, p.consumes d raw = false) :
    dispatchFrom d proto ec raw hs w = router d proto ec raw (w.log (hookCalls d raw hs)) := by
  unfold dispatchFrom
  rw [hookLoop_of_not_consumes d ec raw hs w hall]

/-- A list with a consuming hook splits at the first one. -/
theorem exists_first_consumer (d : Direction) (raw : Bytes) (hs : List HookLib) (h : HookLib)
    (hmem : h ∈ hs) (hc : h.consumes d raw = true) :
    ∃ pre g post, hs = pre ++ g :: post ∧ (∀ p ∈ pre, p.consumes d raw = false) ∧
      g.consumes d raw = true := by
  induction hs with
  | nil => simp at hmem
  | cons a as ih =>
    by_cases ha : a.consumes d raw = true
    · exact ⟨[], a, as, rfl, by simp, ha⟩
    · have hmem2 : h ∈ as := by
        rcases List.mem_cons.1 hmem with rfl | h2
        · exact absurd hc ha
        · exact h2
      obtain ⟨pre, g, post, hsplit, hpre, hg⟩ := ih hmem2
      refine ⟨a :: pre, g, post, by simp [hsplit], ?_, hg⟩
      intro p hp
      rcases List.mem_cons.1 hp with rfl | h2
      · simpa using ha
      · exact hpre p h2

theorem consumes_iff (d : Direction) (raw : Bytes) (h : HookLib) :
    h.consumes d raw = true ↔ ∃ f, h.capability d = some f ∧ (f raw).produced = true := by
  unfold HookLib.consumes
  cases h.capability d <;> simp

theorem filter_isHook_hookCalls (d : Direction) (raw : Bytes) (hs : List HookLib) :
    (hookCalls d raw hs).filter Event.isHook = hookCalls d raw hs := by
  induction hs with
  | nil => rfl
  | cons h hs ih =>
    simp only [hookCalls]
    cases h.capability d with
    | none => simpa using ih
    | some f => cases d <;> simp [hookEvent, Event.isHook, ih]

theorem filter_isHook_sendEvents (c ec : Bool) (data : Bytes) :
    (sendEvents c ec data).filter Event.isHook = [] := by
  cases c <;> cases ec <;> rfl

theorem isParse_hookCalls (d : Direction) (raw : Bytes) (hs : List HookLib) :
    ∀ e ∈ hookCalls d raw hs, e.isParse = false ∧ e.isHandler = false := by
  induction hs with
  | nil => simp [hookCalls]
  | cons h hs ih =>
    simp only [hookCalls]
    cases h.capability d with
    | none => simpa using ih
    | some f =>
      intro e he
      rcases List.mem_cons.1 he with rfl | h2
      · cases d <;> simp [hookEvent, Event.isParse, Event.isHandler]
      · exact ih e h2

theorem isParse_sendEvents (c ec : Bool) (data : Bytes) :
    ∀ e ∈ sendEvents c ec data, e.isParse = false ∧ e.isHandler = false := by
  cases c <;> cases ec <;> simp [sendEvents, Event.isParse, Event.isHandler]

theorem sendCalls_hookCalls (d : Direction) (raw : Bytes) (hs : List HookLib) :
    sendCalls (hookCalls d raw hs) = [] := by
  induction hs with
  | nil => rfl
  | cons h hs ih =>
    simp only [hookCalls]
    cases h.capability d with
    | none => simpa using ih
    | some f => cases d <;> simp [hookEvent, sendCalls, ih]

theorem filter_isHandler_hookCalls (d : Direction) (raw : Bytes) (hs : List HookLib) :
    (hookCalls d raw hs).filter Event.isHandler = [] := by
  rw [List.filter_eq_nil_iff]
  intro e he
  simp [(isParse_hookCalls d raw hs e he).2]

theorem filter_isHandler_sendEvents (c ec : Bool) (data : Bytes) :
    (sendEvents c ec data).filter Event.isHandler = [] := by
  cases c <;> cases ec <;> rfl

theorem isHook_of_mem_hookCalls (d : Direction) (raw : Bytes) (hs : List HookLib) :
    ∀ e ∈ hookCalls d raw hs, e.isHook = true := by
  intro e he
  rw [← filter_isHook_hookCalls] at he
  exact (List.mem_filter.1 he).2

/-- The request router on a buffer that decodes to a request without a
registered handler: the decode, then one send of the re-encoded request. -/
theorem requestRouter_of_unregistered (proto : Proto) (ec : Bool) (raw : Bytes) (w : World)
    (req : MitmRequest) (hparse : proto.parseRequest raw (toInt32 raw.length) = some req)
    (hfind : mapFind w.g_requestHandlers (methodName req.method) = none) :
    requestRouter proto ec raw w =
      w.log (Event.parseRequest raw ::
        sendEvents w.g_dataWs.connected ec (proto.serializeRequest req)) := by
  simp only [requestRouter, hparse, World.log_g_requestHandlers, hfind, send_binary_snd,
    World.log_log, World.log_g_dataWs]
  simp

/-! ## The reference codec -/

theorem toInt32_of_lt (n : Nat) (h : n < 2 ^ 31) : toInt32 n = (n : Int) := by
  unfold toInt32
  norm_num at h ⊢
  omega

theorem bytesToNat_natToBytes (n : Nat) : bytesToNat (natToBytes n) = n := by
  unfold bytesToNat natToBytes
  rw [List.map_map]
  have hmap : List.map ((fun d : Fin 256 => d.val) ∘ fun d => Fin.ofNat d) (Nat.digits 256 n)
      = Nat.digits 256 n := by
    conv_rhs => rw [← List.map_id (Nat.digits 256 n)]
    apply List.map_congr_left
    intro d hd
    have hlt := Nat.digits_lt_base (by norm_num : 1 < 256) hd
    simp [Fin.ofNat]
    omega
  rw [hmap, Nat.ofDigits_digits]

theorem natToBytes_length_le (n k : Nat) (h : n < 256 ^ k) : (natToBytes n).length ≤ k := by
  unfold natToBytes
  rw [List.length_map]
  by_cases hn : n = 0
  · subst hn; simp
  · rw [Nat.digits_len 256 n (by norm_num) hn]
    exact Nat.log_lt_of_lt_pow hn h

theorem decodeFirst_natToBytes {α : Type} [Encodable α] (a : α) :
    decodeFirst (natToBytes (Encodable.encode a))
      ((natToBytes (Encodable.encode a)).length : Int) = some a := by
  unfold decodeFirst
  simp [bytesToNat_natToBytes]

theorem referenceProto_requestRoundTrip : referenceProto.RequestRoundTrip := by
  intro req
  exact decodeFirst_natToBytes req

/-- Decoding what the reference codec wrote for a request, through the
`(int)raw.size()` conversion of the dispatcher. -/
theorem referenceProto_parse_serialize (req : MitmRequest) (k : Nat) (hk : k < 2 ^ 31)
    (h : Encodable.encode req < 256 ^ k) :
    referenceProto.parseRequest (referenceProto.serializeRequest req)
      (toInt32 (referenceProto.serializeRequest req).length) = some req := by
  have hlen : (referenceProto.serializeRequest req).length < 2 ^ 31 :=
    lt_of_le_of_lt (natToBytes_length_le _ k h) hk
  rw [toInt32_of_lt _ hlen]
  exact decodeFirst_natToBytes req

/-! ## Connector -/

theorem sleepsSeconds_append (a b : List Event) :
    sleepsSeconds (a ++ b) = sleepsSeconds a ++ sleepsSeconds b := by
  induction a with
  | nil => rfl
  | cons e es ih => cases e <;> simp [sleepsSeconds, ih]

theorem backoffAfter_succ (k : Nat) :
    backoffAfter (k + 1) =
      if backoffAfter k < 30 then backoffAfter k * 2 else backoffAfter k := by
  unfold backoffAfter
  by_cases h5 : k < 5
  · have hk : k = 0 ∨ k = 1 ∨ k = 2 ∨ k = 3 ∨ k = 4 := by omega
    rcases hk with rfl | rfl | rfl | rfl | rfl <;> norm_num
  · have h6 : ¬ k + 1 < 5 := by omega
    simp [h5, h6]

theorem backoffAfter_bounds (k : Nat) : 1 ≤ backoffAfter k ∧ backoffAfter k ≤ 32 := by
  unfold backoffAfter
  by_cases h5 : k < 5
  · have hk : k = 0 ∨ k = 1 ∨ k = 2 ∨ k = 3 ∨ k = 4 := by omega
    rcases hk with rfl | rfl | rfl | rfl | rfl <;> norm_num
  · simp [h5]

/-- A pass in which the channel is down and `get_connection` fails: the wait is
the current backoff, which then doubles while it is below 30. -/
theorem connectorIter_failed (proto : Proto) (cfg : Config) (env : ConnectorEnv) (b : Int)
    (w : World) (hfail : env.getConnectionEc = true)
    (hdown : env.callback = some false ∨
      (env.callback = none ∧ w.g_dataWs.connected = false)) :
    connectorIter proto cfg env b w =
      (if b < 30 then b * 2 else b,
        { w with
          g_dataWs := { connected := false }
          trace := w.trace ++ [Event.connect (cfg.rotom.worker_endpoint ++ "/") false,
            Event.sleep_seconds b] }) := by
  obtain ⟨run, q, ⟨conn⟩, hooks, rh, sh, tr⟩ := w
  obtain ⟨cb, gce, oib, ec⟩ := env
  simp only at hfail hdown
  subst hfail
  rcases hdown with h | ⟨h, h2⟩
  · subst h
    simp [connectorIter, is_connected, connect, World.log]
  · subst h h2
    simp [connectorIter, is_connected, connect, World.log]

theorem callback_cases (env : ConnectorEnv) (w : World) (hconn : w.g_dataWs.connected = false)
    (hcb : env.callback ≠ some true) :
    env.callback = some false ∨ (env.callback = none ∧ w.g_dataWs.connected = false) := by
  rcases hc : env.callback with _ | _ | _
  · exact Or.inr ⟨rfl, hconn⟩
  · exact Or.inl rfl
  · exact absurd hc hcb

/-- A pass in which the channel is down and `get_connection` reports no
error: `connect` returns true and the backoff stays as it is. -/
theorem connectorIter_connected (proto : Proto) (cfg : Config) (env : ConnectorEnv) (b : Int)
    (w : World) (hconn : w.g_dataWs.connected = false)
    (hok : env.getConnectionEc = false) (hcb : env.callback ≠ some true) :
    ∃ new, (connectorIter proto cfg env b w).2.trace =
      w.trace ++ Event.connect (cfg.rotom.worker_endpoint ++ "/") true :: new := by
  obtain ⟨run, q, ⟨conn⟩, hooks, rh, sh, tr⟩ := w
  obtain ⟨cb, gce, oib, ec⟩ := env
  simp only at hconn hok hcb
  subst hconn hok
  have hw : ∀ (c1 c2 : Bool), ∃ new,
      ((sendWelcome proto cfg ec ⟨run, q, ⟨c1⟩, hooks, rh, sh,
          tr ++ [Event.connect (cfg.rotom.worker_endpoint ++ "/") true]⟩).2.log
        [Event.sleep_seconds 2]).trace =
      tr ++ Event.connect (cfg.rotom.worker_endpoint ++ "/") true :: new := by
    intro c1 c2
    simp only [sendWelcome]
    split
    · exact ⟨[Event.sleep_seconds 2], by simp⟩
    · rw [send_binary_snd]
      exact ⟨_, by simp [List.append_assoc]; rfl⟩
  rcases cb with _ | _ | _
  · cases oib
    · simpa [connectorIter, is_connected, connect, World.log] using hw false false
    · simpa [connectorIter, is_connected, connect, World.log] using hw true false
  · cases oib
    · simpa [connectorIter, is_connected, connect, World.log] using hw false false
    · simpa [connectorIter, is_connected, connect, World.log] using hw true false
  · exact absurd rfl hcb

/-- A pass without a `get_connection` error leaves the backoff as it is. -/
theorem connectorIter_fst_of_no_error (proto : Proto) (cfg : Config) (env : ConnectorEnv)
    (b : Int) (w : World) (hok : env.getConnectionEc = false) :
    (connectorIter proto cfg env b w).1 = b := by
  unfold connectorIter
  simp only [hok, connect]
  split <;> simp

@[simp] theorem World.log_g_running (w : World) (es : List Event) :
    (w.log es).g_running = w.g_running := rfl

theorem send_binary_g_running (ec : Bool) (data : Bytes) (w : World) :
    (send_binary ec data w).2.g_running = w.g_running := by
  rw [send_binary_snd]; rfl

theorem sendWelcome_g_running (proto : Proto) (cfg : Config) (ec : Bool) (w : World) :
    (sendWelcome proto cfg ec w).2.g_running = w.g_running := by
  simp only [sendWelcome]
  split
  · rfl
  · exact send_binary_g_running _ _ _

theorem connectorIter_g_running (proto : Proto) (cfg : Config) (env : ConnectorEnv)
    (b : Int) (w : World) : (connectorIter proto cfg env b w).2.g_running = w.g_running := by
  obtain ⟨cb, gce, oib, ec⟩ := env
  obtain ⟨run, q, ⟨conn⟩, hooks, rh, sh, tr⟩ := w
  cases cb with
  | none =>
    cases conn <;> cases gce <;> cases oib <;>
      simp [connectorIter, is_connected, connect, sendWelcome_g_running]
  | some c =>
    cases c <;> cases gce <;> cases oib <;>
      simp [connectorIter, is_connected, connect, sendWelcome_g_running]

theorem connectorLoop_cons (proto : Proto) (cfg : Config) (e : ConnectorEnv)
    (es : List ConnectorEnv) (b : Int) (w : World) (hrun : w.g_running = true) :
    connectorLoop proto cfg (e :: es) b w =
      connectorLoop proto cfg es (connectorIter proto cfg e b w).1
        (connectorIter proto cfg e b w).2 := by
  simp [connectorLoop, hrun]

theorem connectorLoop_append (proto : Proto) (cfg : Config) (a c : List ConnectorEnv)
    (b : Int) (w : World) :
    connectorLoop proto cfg (a ++ c) b w =
      connectorLoop proto cfg c (connectorLoop proto cfg a b w).1
        (connectorLoop proto cfg a b w).2 := by
  induction a generalizing b w with
  | nil => rfl
  | cons e es ih =>
    by_cases hrun : w.g_running = true
    · simp [connectorLoop, hrun, ih]
    · have hr : w.g_running = false := by simpa using hrun
      cases c with
      | nil => simp [connectorLoop]
      | cons x xs => simp [connectorLoop, hr]

theorem connectorLoop_g_running (proto : Proto) (cfg : Config) (envs : List ConnectorEnv)
    (b : Int) (w : World) :
    (connectorLoop proto cfg envs b w).2.g_running = w.g_running := by
  induction envs generalizing b w with
  | nil => rfl
  | cons e es ih =>
    by_cases hrun : w.g_running = true
    · simp [connectorLoop, hrun, ih, connectorIter_g_running]
    · have hr : w.g_running = false := by simpa using hrun
      simp [connectorLoop, hr]

/-- Passes without a `get_connection` error leave the backoff as it is. -/
theorem connectorLoop_fst_of_no_error (proto : Proto) (cfg : Config)
    (envs : List ConnectorEnv) (b : Int) (w : World)
    (hok : ∀ e ∈ envs, e.getConnectionEc = false) :
    (connectorLoop proto cfg envs b w).1 = b := by
  induction envs generalizing b w with
  | nil => rfl
  | cons e es ih =>
    by_cases hrun : w.g_running = true
    · rw [connectorLoop_cons proto cfg e es b w hrun,
        ih _ _ (fun x hx => hok x (by simp [hx])),
        connectorIter_fst_of_no_error proto cfg e b w (hok e (by simp))]
    · have hr : w.g_running = false := by simpa using hrun
      simp [connectorLoop, hr]

/-- The connector after `envs.length` failed attempts in a row, started with
the backoff reached after `j` failures. -/
theorem connectorLoop_failed (proto : Proto) (cfg : Config) (envs : List ConnectorEnv)
    (j : Nat) (w : World) (hrun : w.g_running = true) (hconn : w.g_dataWs.connected = false)
    (hfail : ∀ e ∈ envs, e.getConnectionEc = true ∧ e.callback ≠ some true) :
    ∃ new, (connectorLoop proto cfg envs (backoffAfter j) w).2.trace = w.trace ++ new ∧
      sleepsSeconds new = (List.range envs.length).map (fun k => backoffAfter (j + k)) ∧
      (connectorLoop proto cfg envs (backoffAfter j) w).1 = backoffAfter (j + envs.length) ∧
      (connectorLoop proto cfg envs (backoffAfter j) w).2.g_dataWs.connected = false := by
  induction envs generalizing j w with
  | nil => exact ⟨[], by simp [connectorLoop], by simp [sleepsSeconds], by simp [connectorLoop],
      by simpa [connectorLoop] using hconn⟩
  | cons e es ih =>
    have hstep := connectorIter_failed proto cfg e (backoffAfter j) w (hfail e (by simp)).1
      (callback_cases e w hconn (hfail e (by simp)).2)
    rw [← backoffAfter_succ] at hstep
    obtain ⟨new, htr, hsl, hb, hc⟩ := ih (j + 1)
      { w with
        g_dataWs := { connected := false }
        trace := w.trace ++ [Event.connect (cfg.rotom.worker_endpoint ++ "/") false,
          Event.sleep_seconds (backoffAfter j)] } hrun rfl
      (fun x hx => hfail x (by simp [hx]))
    refine ⟨[Event.connect (cfg.rotom.worker_endpoint ++ "/") false,
      Event.sleep_seconds (backoffAfter j)] ++ new, ?_, ?_, ?_, ?_⟩
    · rw [connectorLoop_cons proto cfg e es _ w hrun, hstep]
      rw [htr]
      simp
    · rw [sleepsSeconds_append, hsl]
      simp only [sleepsSeconds, List.length_cons, List.range_succ_eq_map, List.map_cons,
        List.map_map]
      simp [Function.comp_def, Nat.add_assoc, Nat.add_comm 1]
    · rw [connectorLoop_cons proto cfg e es _ w hrun, hstep]
      rw [hb]
      simp [Nat.add_assoc, Nat.add_comm 1]
    · rw [connectorLoop_cons proto cfg e es _ w hrun, hstep]
      exact hc

/-! ## Send queue calls -/

/-- One call keeps the books: what was in the queue plus what the call pushed
is what the call popped followed by what is in the queue afterwards. -/
theorem SendQueue.call_books (s : SendQueue) (op : QueueOp) :
    s.q_ ++ pushedItems [op] = poppedItems [(s.call op).2] ++ (s.call op).1.q_ := by
  obtain ⟨q, c⟩ := s
  cases op with
  | push it => simp [SendQueue.call, SendQueue.push, pushedItems, poppedItems]
  | wait_pop =>
    cases q with
    | nil => cases c <;> simp [SendQueue.call, SendQueue.wait_pop, pushedItems, poppedItems]
    | cons x xs => simp [SendQueue.call, SendQueue.wait_pop, pushedItems, poppedItems]
  | close => simp [SendQueue.call, SendQueue.close, pushedItems, poppedItems]
  | size => simp [SendQueue.call, pushedItems, poppedItems]

theorem pushedItems_cons (op : QueueOp) (ops : List QueueOp) :
    pushedItems (op :: ops) = pushedItems [op] ++ pushedItems ops := by
  cases op <;> simp [pushedItems]

theorem poppedItems_cons (r : QueueRet) (rs : List QueueRet) :
    poppedItems (r :: rs) = poppedItems [r] ++ poppedItems rs := by
  cases r <;> simp [poppedItems]

theorem pushedItems_append (a b : List QueueOp) :
    pushedItems (a ++ b) = pushedItems a ++ pushedItems b := by
  induction a with
  | nil => rfl
  | cons op ops ih => rw [List.cons_append, pushedItems_cons, ih, pushedItems_cons op ops,
      List.append_assoc]

/-- A sequence of calls keeps the books. -/
theorem SendQueue.run_books (ops : List QueueOp) (s : SendQueue) :
    s.q_ ++ pushedItems ops = poppedItems (s.run ops).2 ++ (s.run ops).1.q_ := by
  induction ops generalizing s with
  | nil => simp [SendQueue.run, pushedItems, poppedItems]
  | cons op ops ih =>
    have h1 := SendQueue.call_books s op
    have h2 := ih (s.call op).1
    simp only [SendQueue.run]
    rw [pushedItems_cons, poppedItems_cons, ← List.append_assoc, h1, List.append_assoc, h2,
      List.append_assoc]

theorem SendQueue.run_append (a b : List QueueOp) (s : SendQueue) :
    s.run (a ++ b) = ((s.run a).1.run b |>.1, (s.run a).2 ++ ((s.run a).1.run b).2) := by
  induction a generalizing s with
  | nil => simp [SendQueue.run]
  | cons op ops ih => simp [SendQueue.run, ih]

theorem SendQueue.run_pushes (items : List SendItem) (s : SendQueue) :
    s.run (items.map QueueOp.push) =
      ({ s with q_ := s.q_ ++ items }, List.replicate items.length QueueRet.done) := by
  induction items generalizing s with
  | nil => simp [SendQueue.run]
  | cons it its ih =>
    simp [SendQueue.run, SendQueue.call, SendQueue.push, ih, List.replicate_succ]

/-- Popping as many times as there are items gives the items back in order and
empties the queue. -/
theorem SendQueue.run_pops (items : List SendItem) (c : Bool) :
    SendQueue.run { q_ := items, closed_ := c }
        (List.replicate items.length QueueOp.wait_pop) =
      ({ q_ := [], closed_ := c }, items.map QueueRet.popped) := by
  induction items with
  | nil => simp [SendQueue.run]
  | cons it its ih =>
    simp [SendQueue.run, SendQueue.call, SendQueue.wait_pop, ih, List.replicate_succ]

theorem poppedItems_map_popped (items : List SendItem) :
    poppedItems (items.map QueueRet.popped) = items := by
  induction items with
  | nil => rfl
  | cons it its ih => simp [poppedItems, ih]

theorem poppedItems_replicate_done (n : Nat) :
    poppedItems (List.replicate n QueueRet.done) = [] := by
  induction n with
  | zero => rfl
  | succ n ih => simp [List.replicate_succ, poppedItems, ih]

theorem poppedItems_append (a b : List QueueRet) :
    poppedItems (a ++ b) = poppedItems a ++ poppedItems b := by
  induction a with
  | nil => rfl
  | cons r rs ih => rw [List.cons_append, poppedItems_cons, ih, poppedItems_cons r rs,
      List.append_assoc]

theorem SendQueue.call_closed (s : SendQueue) (op : QueueOp) (h : s.closed_ = true) :
    (s.call op).1.closed_ = true := by
  obtain ⟨q, c⟩ := s
  simp only at h
  subst h
  cases op with
  | push it => rfl
  | wait_pop => cases q <;> rfl
  | close => rfl
  | size => rfl

theorem SendQueue.run_closed (ops : List QueueOp) (s : SendQueue) (h : s.closed_ = true) :
    (s.run ops).1.closed_ = true := by
  induction ops generalizing s with
  | nil => exact h
  | cons op ops ih => exact ih _ (SendQueue.call_closed s op h)

/-! ## Router -/

theorem mapFind_mapAssign_self {α : Type} (m : List (String × α)) (k : String) (v : α) :
    mapFind (mapAssign m k v) k = some v := by
  simp [mapFind, mapAssign, List.lookup]

theorem lookup_filter_bne {α : Type} (m : List (String × α)) (k k2 : String)
    (hne : k2 ≠ k) : List.lookup k2 (m.filter (fun e => e.1 != k)) = List.lookup k2 m := by
  induction m with
  | nil => rfl
  | cons e es ih =>
    obtain ⟨a, b⟩ := e
    by_cases hak : a = k
    · have h1 : (k2 == a) = false := by
        rw [hak]; simpa using hne
      rw [hak] at h1
      simp [List.filter_cons, hak, List.lookup_cons, ih, h1]
    · simp [List.filter_cons, hak, List.lookup_cons, ih]

theorem mapFind_mapAssign_of_ne {α : Type} (m : List (String × α)) (k k2 : String) (v : α)
    (hne : k2 ≠ k) : mapFind (mapAssign m k v) k2 = mapFind m k2 := by
  have hbeq : (k2 == k) = false := by simpa using hne
  simp only [mapFind, mapAssign]
  rw [List.lookup_cons, hbeq]
  exact lookup_filter_bne m k k2 hne

/-- The handlers registered by `main` answer LOGIN with `loginHandler`,
whatever was registered before. -/
theorem mapFind_registerMainHandlers_login (w : World) :
    mapFind (registerMainHandlers w).g_requestHandlers "LOGIN" = some loginHandler := by
  simp only [registerMainHandlers, addRequestHandler]
  rw [mapFind_mapAssign_of_ne _ _ _ _ (by decide), mapFind_mapAssign_self]

/-- A dispatcher on a buffer that no hook consumes and that fails to decode:
the hook invocations and the failed decode are all that happens. -/
theorem handleBuffer_of_decodeFails (d : Direction) (proto : Proto) (ec : Bool) (raw : Bytes)
    (w : World) (hhooks : ∀ h ∈ w.g_hooklibs, h.consumes d raw = false)
    (hfail : decodeFails proto d raw) :
    handleBuffer d proto ec raw w =
      w.log (hookCalls d raw w.g_hooklibs ++ [parseEvent d raw]) := by
  rw [handleBuffer_eq_dispatchFrom, dispatchFrom_of_not_consumes d proto ec raw _ w hhooks]
  cases d
  · have h : proto.parseRequest raw (toInt32 raw.length) = none := hfail
    simp only [router, requestRouter, h, World.log_log, parseEvent]
  · have h : proto.parseResponse raw (toInt32 raw.length) = none := hfail
    simp only [router, responseRouter, h, World.log_log, parseEvent]

/-- The request dispatcher when a registered handler sets the status. -/
theorem handleRequestBuffer_of_registered (proto : Proto) (ec : Bool) (raw : Bytes)
    (w : World) (req : MitmRequest) (handler : ReqHandlerFn)
    (hhooks : ∀ h ∈ w.g_hooklibs, h.consumes .request raw = false)
    (hparse : proto.parseRequest raw (toInt32 raw.length) = some req)
    (hfind : mapFind w.g_requestHandlers (methodName req.method) = some handler)
    (hst : (handler req MitmResponse.fresh).status ≠ Status.UNSET) :
    handleRequestBuffer proto ec raw w =
      w.log (hookCalls .request raw w.g_hooklibs ++
        [Event.parseRequest raw,
          Event.reqHandler (methodName req.method) req MitmResponse.fresh] ++
        sendEvents w.g_dataWs.connected ec
          (proto.serializeResponse (handler req MitmResponse.fresh))) := by
  have h1 := handleBuffer_eq_dispatchFrom .request proto ec raw w
  rw [dispatchFrom_of_not_consumes .request proto ec raw _ w hhooks] at h1
  change handleRequestBuffer proto ec raw w = _ at h1
  rw [h1]
  simp only [router, requestRouter, hparse, World.log_g_requestHandlers, hfind,
    World.log_log, send_binary_snd, World.log_g_dataWs]
  simp [hst]

/-- The response dispatcher on a buffer that no hook consumes and that
decodes, when the table has an entry under the key. -/
theorem handleResponseBuffer_of_registered (proto : Proto) (ec : Bool) (raw : Bytes)
    (w : World) (resp : MitmResponse) (handler : RespHandlerFn)
    (hhooks : ∀ h ∈ w.g_hooklibs, h.consumes .response raw = false)
    (hparse : proto.parseResponse raw (toInt32 raw.length) = some resp)
    (hfind : mapFind w.g_responseHandlers (responseKey proto resp) = some handler) :
    handleResponseBuffer proto ec raw w =
      w.log (hookCalls .response raw w.g_hooklibs ++
        [Event.parseResponse raw, Event.respHandler (responseKey proto resp) resp]) := by
  have h1 := handleBuffer_eq_dispatchFrom .response proto ec raw w
  rw [dispatchFrom_of_not_consumes .response proto ec raw _ w hhooks] at h1
  change handleResponseBuffer proto ec raw w = _ at h1
  rw [h1]
  unfold responseKey at hfind
  simp only [router, responseRouter, hparse, World.log_g_responseHandlers, hfind,
    World.log_log, responseKey]
  simp

/-- The response dispatcher on a buffer that no hook consumes and that
decodes, when the table has no entry under the key. -/
theorem handleResponseBuffer_of_unregistered (proto : Proto) (ec : Bool) (raw : Bytes)
    (w : World) (resp : MitmResponse)
    (hhooks : ∀ h ∈ w.g_hooklibs, h.consumes .response raw = false)
    (hparse : proto.parseResponse raw (toInt32 raw.length) = some resp)
    (hfind : mapFind w.g_responseHandlers (responseKey proto resp) = none) :
    handleResponseBuffer proto ec raw w =
      w.log (hookCalls .response raw w.g_hooklibs ++ Event.parseResponse raw ::
        sendEvents w.g_dataWs.connected ec (proto.serializeResponse resp)) := by
  have h1 := handleBuffer_eq_dispatchFrom .response proto ec raw w
  rw [dispatchFrom_of_not_consumes .response proto ec raw _ w hhooks] at h1
  change handleResponseBuffer proto ec raw w = _ at h1
  rw [h1]
  unfold responseKey at hfind
  simp only [router, responseRouter, hparse, World.log_g_responseHandlers, hfind,
    World.log_log, send_binary_snd, World.log_g_dataWs]
  simp

/-! ## The reference codec on malformed input and on responses -/

/-- Decoding what the reference codec wrote for a response, through the
`(int)raw.size()` conversion of the dispatcher. -/
theorem referenceProto_parseResponse_serialize (resp : MitmResponse) (k : Nat)
    (hk : k < 2 ^ 31) (h : Encodable.encode resp < 256 ^ k) :
    referenceProto.parseResponse (referenceProto.serializeResponse resp)
      (toInt32 (referenceProto.serializeResponse resp).length) = some resp := by
  have hlen : (referenceProto.serializeResponse resp).length < 2 ^ 31 :=
    lt_of_le_of_lt (natToBytes_length_le _ k h) hk
  rw [toInt32_of_lt _ hlen]
  exact decodeFirst_natToBytes resp

theorem unpair_42 : Nat.unpair 42 = (6, 0) := by
  have h : (42 : ℕ) = Nat.pair 6 0 := by decide
  rw [h, Nat.unpair_pair]

theorem decode_sum_6 : (Encodable.decode 6 : Option (ℕ ⊕ ℤ)) = some (Sum.inl 3) := by
  rfl

theorem decode_method_6 : (Encodable.decode 6 : Option Method) = none := by
  show (@Encodable.decode (ℕ ⊕ ℤ) _ 6).bind _ = none
  rw [decode_sum_6]
  rfl

theorem decode_status_6 : (Encodable.decode 6 : Option Status) = none := by
  show (@Encodable.decode (ℕ ⊕ ℤ) _ 6).bind _ = none
  rw [decode_sum_6]
  rfl

theorem decode_request_42 : (Encodable.decode 42 : Option MitmRequest) = none := by
  show (@Encodable.decode (Method × String × List Bytes) _ 42).bind _ = none
  rw [Encodable.decode_prod_val, unpair_42]
  simp [decode_method_6]

theorem decode_response_42 : (Encodable.decode 42 : Option MitmResponse) = none := by
  show (@Encodable.decode (Status × Option LoginResponse × Option RpcResponse) _ 42).bind _
    = none
  rw [Encodable.decode_prod_val, unpair_42]
  simp [decode_status_6]

theorem bytesToNat_singleton (b : Fin 256) : bytesToNat [b] = b.val := by
  simp [bytesToNat, Nat.ofDigits]

/-- The one-byte buffer `[42]` is no envelope for the reference codec. -/
theorem referenceProto_decodeFails (d : Direction) : decodeFails referenceProto d [42] := by
  cases d
  · show decodeFirst [42] (toInt32 1) = none
    have h1 : toInt32 1 = 1 := by decide
    rw [h1]
    unfold decodeFirst
    have h42 : ((42 : Fin 256) : ℕ) = 42 := rfl
    simp [bytesToNat_singleton, h42, decode_request_42]
  · show decodeFirst [42] (toInt32 1) = none
    have h1 : toInt32 1 = 1 := by decide
    rw [h1]
    unfold decodeFirst
    have h42 : ((42 : Fin 256) : ℕ) = 42 := rfl
    simp [bytesToNat_singleton, h42, decode_response_42]

/-! ## Scanner -/

/-- A pass that meets no exception pushes the entries that pass the three
tests, in directory order, and changes nothing else. -/
theorem scanEntries_of_no_throw (minSize : Int) (entries : List DirEntry) (w : World)
    (hno : ∀ p ∈ entries, p.throws = false) :
    scanEntries minSize entries w =
      { w with g_sendQueue :=
        { w.g_sendQueue with
          q_ := w.g_sendQueue.q_ ++
            (entries.filter (DirEntry.enqueued minSize)).map DirEntry.toItem } } := by
  induction entries generalizing w with
  | nil => simp [scanEntries]
  | cons p ps ih =>
    have hp : p.throws = false := hno p (by simp)
    have hps : ∀ q ∈ ps, q.throws = false := fun q hq => hno q (by simp [hq])
    unfold scanEntries
    simp only [hp, Bool.false_eq_true, if_false]
    by_cases hreg : p.is_regular_file = true
    · by_cases hsz : toInt32 p.file_size < minSize
      · simp only [hreg, hsz, Bool.not_true, Bool.false_eq_true, if_false, if_true]
        rw [ih _ hps]
        simp [hreg, hsz, DirEntry.enqueued, List.filter_cons]
      · by_cases hop : p.is_open = true
        · simp only [hreg, hsz, hop, Bool.not_true, Bool.false_eq_true, if_false]
          rw [ih _ hps]
          simp [hreg, hsz, hop, DirEntry.enqueued, List.filter_cons, SendQueue.push,
            DirEntry.toItem]
        · have hop2 : p.is_open = false := by simpa using hop
          simp only [hreg, hsz, hop2, Bool.not_true, Bool.not_false, Bool.false_eq_true,
            if_false, if_true]
          rw [ih _ hps]
          simp [hreg, hsz, hop2, DirEntry.enqueued, List.filter_cons]
    · have hreg2 : p.is_regular_file = false := by simpa using hreg
      simp only [hreg2, Bool.not_false, if_true]
      rw [ih _ hps]
      simp [hreg2, DirEntry.enqueued, List.filter_cons]

/-- Below 2 GiB the `(int)sz` conversion keeps the size, so the test is the
comparison of the size with the threshold. -/
theorem enqueued_of_lt (minSize : Int) (p : DirEntry) (hlt : p.file_size < 2 ^ 31) :
    p.enqueued minSize =
      (p.is_regular_file && decide (minSize ≤ (p.file_size : Int)) && p.is_open) := by
  unfold DirEntry.enqueued
  rw [toInt32_of_lt _ hlt]
  by_cases h : (p.file_size : Int) < minSize
  · have h2 : ¬ minSize ≤ (p.file_size : Int) := by omega
    simp [h, h2]
  · have h2 : minSize ≤ (p.file_size : Int) := by omega
    simp [h, h2]

/-- One pass of `scanDirLoop` that meets no exception: the eligible entries are
appended to the queue, whatever it holds, and the sleeps are logged. -/
theorem scanDirLoopIter_of_no_throw (minSize : Int) (entries : List DirEntry) (w : World)
    (hrun : w.g_running = true) (hno : ∀ p ∈ entries, p.throws = false) :
    scanDirLoopIter minSize entries w =
      { w with
        g_sendQueue :=
          { w.g_sendQueue with
            q_ := w.g_sendQueue.q_ ++
              (entries.filter (DirEntry.enqueued minSize)).map DirEntry.toItem }
        trace := w.trace ++ scanSleeps } := by
  unfold scanDirLoopIter
  rw [scanEntries_of_no_throw minSize entries w hno]
  simp [hrun, World.log]

/-- The loop of a pass sees only the entries it reaches. -/
theorem scanEntries_scanReached (minSize : Int) (entries : List DirEntry) (w : World) :
    scanEntries minSize entries w = scanEntries minSize (scanReached entries) w := by
  induction entries generalizing w with
  | nil => rfl
  | cons p ps ih =>
    by_cases hp : p.throws = true
    · simp [scanReached, scanEntries, hp]
    · have hp2 : p.throws = false := by simpa using hp
      have hr : scanReached (p :: ps) = p :: scanReached ps := by
        simp [scanReached, hp2]
      rw [hr]
      unfold scanEntries
      simp only [hp2, Bool.false_eq_true, if_false]
      rw [ih, ih]

theorem throws_of_mem_scanReached (entries : List DirEntry) :
    ∀ p ∈ scanReached entries, p.throws = false := by
  intro p hp
  have := List.mem_takeWhile_imp hp
  simpa using this

theorem scanReached_of_no_throw (entries : List DirEntry)
    (hno : ∀ p ∈ entries, p.throws = false) : scanReached entries = entries := by
  unfold scanReached
  rw [List.takeWhile_eq_self_iff]
  intro p hp
  simp [hno p hp]

/-- One pass of `scanDirLoop`: the eligible entries among those reached are
appended to the queue, whatever it holds, and the sleeps are logged. -/
theorem scanDirLoopIter_eq (minSize : Int) (entries : List DirEntry) (w : World)
    (hrun : w.g_running = true) :
    scanDirLoopIter minSize entries w =
      { w with
        g_sendQueue :=
          { w.g_sendQueue with
            q_ := w.g_sendQueue.q_ ++
              ((scanReached entries).filter (DirEntry.enqueued minSize)).map DirEntry.toItem }
        trace := w.trace ++ scanSleeps } := by
  unfold scanDirLoopIter
  rw [scanEntries_scanReached,
    scanEntries_of_no_throw minSize (scanReached entries) w (throws_of_mem_scanReached entries)]
  simp [hrun, World.log]

/-! # Claims -/

/-! ## Sender worker -/

/-- C1. At-least-once step of `senderWorker`: whatever the connection state
and the send outcome, an iteration that popped `it` continues the loop in
exactly one of two ways: (a) `send_binary` returned true on the payload, the
source file removal ran and the item is not pushed again, or (b) no removal ran
and the item is back in the queue with the same path and payload.  A removal
happens only for the path of the item and only together with a successful
send, and the item is either sent or still in the queue. -/
theorem senderWorker_at_least_once (env : WorkerEnv) (w : World) (it : SendItem)
    (rest : List SendItem) (hrun : w.g_running = true)
    (hq : w.g_sendQueue.q_ = it :: rest) :
    ∃ w2 new, senderWorkerIter env w = .continued w2 ∧ w2.trace = w.trace ++ new ∧
      ((DeliveredThenDeleted it rest w2.g_sendQueue.q_ new ∧
          ¬ Requeued it rest w2.g_sendQueue.q_ new) ∨
        (Requeued it rest w2.g_sendQueue.q_ new ∧
          ¬ DeliveredThenDeleted it rest w2.g_sendQueue.q_ new)) ∧
      (∀ p, Event.remove p ∈ new → p = it.path ∧ Event.send_binary it.payload true ∈ new) ∧
      (Event.send_binary it.payload true ∈ new ∨ it ∈ w2.g_sendQueue.q_) := by
  obtain ⟨run, ⟨q, closed⟩, ⟨conn⟩, hooks, rh, sh, tr⟩ := w
  obtain ⟨cib, ec⟩ := env
  simp only at hrun hq
  subst hrun hq
  by_cases hsent : (conn && !cib && !ec) = true
  · -- the send succeeds
    simp only [Bool.and_eq_true, Bool.not_eq_true'] at hsent
    obtain ⟨⟨rfl, rfl⟩, rfl⟩ := hsent
    refine ⟨⟨true, ⟨rest, closed⟩, ⟨true⟩, hooks, rh, sh, tr ++ [.transport it.payload,
      .send_binary it.payload true, .remove it.path, .sleep_millis 120]⟩,
      [.transport it.payload, .send_binary it.payload true, .remove it.path,
      .sleep_millis 120], ?_, rfl, Or.inl ⟨⟨?_, ?_, rfl⟩, ?_⟩, ?_, Or.inl ?_⟩
    · simp [senderWorkerIter, SendQueue.wait_pop, is_connected, send_binary, World.log]
    · simp
    · simp
    · intro h
      exact h.1 it.path (by simp)
    · intro p hp
      simp at hp
      simp [hp]
    · simp
  · -- the item is pushed back
    have hiter : ∃ new, senderWorkerIter ⟨cib, ec⟩
          ⟨true, ⟨it :: rest, closed⟩, ⟨conn⟩, hooks, rh, sh, tr⟩ =
          .continued ⟨true, ⟨rest ++ [it], closed⟩, ⟨conn && !cib⟩, hooks, rh, sh, tr ++ new⟩ ∧
          (∀ p, Event.remove p ∉ new) := by
      cases conn <;> cases cib <;> cases ec <;> simp at hsent
      · exact ⟨[.sleep_seconds 1], by simp [senderWorkerIter, SendQueue.wait_pop, is_connected, send_binary, World.log, SendQueue.push], by simp⟩
      · exact ⟨[.sleep_seconds 1], by simp [senderWorkerIter, SendQueue.wait_pop, is_connected, send_binary, World.log, SendQueue.push], by simp⟩
      · exact ⟨[.sleep_seconds 1], by simp [senderWorkerIter, SendQueue.wait_pop, is_connected, send_binary, World.log, SendQueue.push], by simp⟩
      · exact ⟨[.sleep_seconds 1], by simp [senderWorkerIter, SendQueue.wait_pop, is_connected, send_binary, World.log, SendQueue.push], by simp⟩
      · exact ⟨[.transport it.payload, .send_binary it.payload false, .sleep_seconds 1], by simp [senderWorkerIter, SendQueue.wait_pop, is_connected, send_binary, World.log, SendQueue.push],
          by simp⟩
      · exact ⟨[.send_binary it.payload false, .sleep_seconds 1], by simp [senderWorkerIter, SendQueue.wait_pop, is_connected, send_binary, World.log, SendQueue.push], by simp⟩
      · exact ⟨[.send_binary it.payload false, .sleep_seconds 1], by simp [senderWorkerIter, SendQueue.wait_pop, is_connected, send_binary, World.log, SendQueue.push], by simp⟩
    obtain ⟨new, hnew, hrm⟩ := hiter
    refine ⟨_, new, hnew, rfl, Or.inr ⟨⟨hrm, rfl⟩, ?_⟩, ?_, Or.inr ?_⟩
    · intro h
      exact hrm _ h.2.1
    · intro p hp
      exact absurd hp (hrm p)
    · simp

/-- Witness for C1: a connected worker whose send succeeds, on a queue of two
items. -/
theorem senderWorker_at_least_once_witness :
    (queuedWorld true).g_running = true ∧
    (queuedWorld true).g_sendQueue.q_ = itemA :: [itemB] ∧
    ∃ w2 new, senderWorkerIter ⟨false, false⟩ (queuedWorld true) = .continued w2 ∧
      w2.trace = (queuedWorld true).trace ++ new ∧
      ((DeliveredThenDeleted itemA [itemB] w2.g_sendQueue.q_ new ∧
          ¬ Requeued itemA [itemB] w2.g_sendQueue.q_ new) ∨
        (Requeued itemA [itemB] w2.g_sendQueue.q_ new ∧
          ¬ DeliveredThenDeleted itemA [itemB] w2.g_sendQueue.q_ new)) ∧
      (∀ p, Event.remove p ∈ new →
        p = itemA.path ∧ Event.send_binary itemA.payload true ∈ new) ∧
      (Event.send_binary itemA.payload true ∈ new ∨ itemA ∈ w2.g_sendQueue.q_) :=
  ⟨rfl, rfl,
    senderWorker_at_least_once ⟨false, false⟩ (queuedWorld true) itemA [itemB] rfl rfl⟩

/-- C2. When the data channel is not Connected at the moment a worker has
popped an item, the iteration makes no `send_binary` call, hands nothing to the
transport and removes nothing: its only effect is the one-second sleep.  The
item is pushed back, so the queue size equals the size before the pop, for
every queue content. -/
theorem senderWorker_disconnected_requeues (env : WorkerEnv) (w : World) (it : SendItem)
    (rest : List SendItem) (hrun : w.g_running = true)
    (hq : w.g_sendQueue.q_ = it :: rest) (hconn : is_connected w = false) :
    ∃ w2, senderWorkerIter env w = .continued w2 ∧
      w2.trace = w.trace ++ [Event.sleep_seconds 1] ∧
      w2.g_sendQueue.q_ = rest ++ [it] ∧
      w2.g_sendQueue.size = w.g_sendQueue.size := by
  obtain ⟨run, ⟨q, closed⟩, ⟨conn⟩, hooks, rh, sh, tr⟩ := w
  simp only [is_connected] at hrun hq hconn
  subst hrun hq hconn
  refine ⟨⟨true, ⟨rest ++ [it], closed⟩, ⟨false⟩, hooks, rh, sh, tr ++ [.sleep_seconds 1]⟩,
    ?_, rfl, rfl, ?_⟩
  · simp [senderWorkerIter, SendQueue.wait_pop, is_connected, World.log, SendQueue.push]
  · simp [SendQueue.size]

/-- Witness for C2: a disconnected worker on a queue of two items puts the
popped item behind the other one. -/
theorem senderWorker_disconnected_requeues_witness :
    (queuedWorld false).g_running = true ∧
    (queuedWorld false).g_sendQueue.q_ = itemA :: [itemB] ∧
    is_connected (queuedWorld false) = false ∧
    ∃ w2, senderWorkerIter ⟨false, false⟩ (queuedWorld false) = .continued w2 ∧
      w2.trace = (queuedWorld false).trace ++ [Event.sleep_seconds 1] ∧
      w2.g_sendQueue.q_ = [itemB] ++ [itemA] ∧
      w2.g_sendQueue.size = (queuedWorld false).g_sendQueue.size :=
  ⟨rfl, rfl, rfl,
    senderWorker_disconnected_requeues ⟨false, false⟩ (queuedWorld false) itemA [itemB]
      rfl rfl rfl⟩

/-! ## Message router -/

/-- C3. Fallback completeness of `handleRequestBuffer`: when no hook consumes
the buffer, the buffer decodes to a request and the method name of the request
has no entry in the request handler table, the new events are the hook
invocations, the decode and one `send_binary` call whose payload is the
re-encoding of the decoded request; with a codec that obeys the round-trip
law, decoding the sent bytes gives the same request back.  No handler is
invoked and both handler tables are unchanged. -/
theorem unregistered_method_forwards_request (proto : Proto) (ec : Bool) (raw : Bytes)
    (w : World) (req : MitmRequest)
    (hhooks : ∀ h ∈ w.g_hooklibs, h.consumes .request raw = false)
    (hparse : proto.parseRequest raw (toInt32 raw.length) = some req)
    (hfind : mapFind w.g_requestHandlers (methodName req.method) = none)
    (hrt : proto.RequestRoundTrip) :
    ∃ new, (handleRequestBuffer proto ec raw w).trace = w.trace ++ new ∧
      new = hookCalls .request raw w.g_hooklibs ++ Event.parseRequest raw ::
        sendEvents w.g_dataWs.connected ec (proto.serializeRequest req) ∧
      sendCalls new = [proto.serializeRequest req] ∧
      proto.parseRequest (proto.serializeRequest req)
        ((proto.serializeRequest req).length : Int) = some req ∧
      new.filter Event.isHandler = [] ∧
      (handleRequestBuffer proto ec raw w).g_requestHandlers = w.g_requestHandlers ∧
      (handleRequestBuffer proto ec raw w).g_responseHandlers = w.g_responseHandlers := by
  have hrun : handleRequestBuffer proto ec raw w =
      w.log (hookCalls .request raw w.g_hooklibs ++ Event.parseRequest raw ::
        sendEvents w.g_dataWs.connected ec (proto.serializeRequest req)) := by
    have h1 := handleBuffer_eq_dispatchFrom .request proto ec raw w
    rw [dispatchFrom_of_not_consumes .request proto ec raw _ w hhooks] at h1
    change handleRequestBuffer proto ec raw w = _ at h1
    rw [h1]
    simp only [router, requestRouter, hparse, World.log_g_requestHandlers, hfind,
      send_binary_snd, World.log_log, World.log_g_dataWs]
    simp
  refine ⟨_, ?_, rfl, ?_, hrt req, ?_, ?_, ?_⟩
  · rw [hrun]; rfl
  · rw [sendCalls_append, sendCalls_hookCalls]
    simp [sendCalls, sendCalls_sendEvents]
  · rw [List.filter_append, filter_isHandler_hookCalls]
    simp [Event.isHandler, filter_isHandler_sendEvents]
  · rw [hrun]; rfl
  · rw [hrun]; rfl

/-- Witness for C3: a request with method `UNSET` reaches the started world
behind two hooks that decline. -/
theorem unregistered_method_forwards_request_witness :
    (∀ h ∈ (startedWorld [silentHook, failingHook] true).g_hooklibs,
      h.consumes .request (referenceProto.serializeRequest { method := .UNSET }) = false) ∧
    mapFind (startedWorld [silentHook, failingHook] true).g_requestHandlers
      (methodName Method.UNSET) = none ∧
    ∃ new, (handleRequestBuffer referenceProto false
          (referenceProto.serializeRequest { method := .UNSET })
          (startedWorld [silentHook, failingHook] true)).trace =
        (startedWorld [silentHook, failingHook] true).trace ++ new ∧
      new = hookCalls .request (referenceProto.serializeRequest { method := .UNSET })
          (startedWorld [silentHook, failingHook] true).g_hooklibs ++
        Event.parseRequest (referenceProto.serializeRequest { method := .UNSET }) ::
        sendEvents true false (referenceProto.serializeRequest { method := .UNSET }) ∧
      sendCalls new = [referenceProto.serializeRequest { method := .UNSET }] ∧
      referenceProto.parseRequest (referenceProto.serializeRequest { method := .UNSET })
        ((referenceProto.serializeRequest { method := .UNSET }).length : Int)
        = some { method := .UNSET } ∧
      new.filter Event.isHandler = [] ∧
      (handleRequestBuffer referenceProto false
          (referenceProto.serializeRequest { method := .UNSET })
          (startedWorld [silentHook, failingHook] true)).g_requestHandlers =
        (startedWorld [silentHook, failingHook] true).g_requestHandlers ∧
      (handleRequestBuffer referenceProto false
          (referenceProto.serializeRequest { method := .UNSET })
          (startedWorld [silentHook, failingHook] true)).g_responseHandlers =
        (startedWorld [silentHook, failingHook] true).g_responseHandlers :=
  ⟨by decide, rfl,
    unregistered_method_forwards_request referenceProto false
      (referenceProto.serializeRequest { method := .UNSET })
      (startedWorld [silentHook, failingHook] true) { method := .UNSET }
      (by decide)
      (referenceProto_parse_serialize { method := .UNSET } 8 (by norm_num) (by decide))
      rfl referenceProto_requestRoundTrip⟩

/-- C4. When `handleRequestBuffer` finds a handler under the method name of
the decoded request, it invokes that handler once, with the decoded request and
the freshly constructed Response whose status is `UNSET`.  Afterwards it makes
one `send_binary` call on the encoded Response when the status the handler left
is not `UNSET`, and no send at all when the status is still `UNSET`. -/
theorem registered_method_invokes_handler (proto : Proto) (ec : Bool) (raw : Bytes)
    (w : World) (req : MitmRequest) (handler : ReqHandlerFn)
    (hhooks : ∀ h ∈ w.g_hooklibs, h.consumes .request raw = false)
    (hparse : proto.parseRequest raw (toInt32 raw.length) = some req)
    (hfind : mapFind w.g_requestHandlers (methodName req.method) = some handler) :
    ∃ new, (handleRequestBuffer proto ec raw w).trace = w.trace ++ new ∧
      MitmResponse.fresh.status = Status.UNSET ∧
      new.filter Event.isHandler =
        [Event.reqHandler (methodName req.method) req MitmResponse.fresh] ∧
      ((handler req MitmResponse.fresh).status ≠ Status.UNSET →
        new = hookCalls .request raw w.g_hooklibs ++
          [Event.parseRequest raw,
            Event.reqHandler (methodName req.method) req MitmResponse.fresh] ++
          sendEvents w.g_dataWs.connected ec
            (proto.serializeResponse (handler req MitmResponse.fresh)) ∧
        sendCalls new = [proto.serializeResponse (handler req MitmResponse.fresh)]) ∧
      ((handler req MitmResponse.fresh).status = Status.UNSET →
        new = hookCalls .request raw w.g_hooklibs ++
          [Event.parseRequest raw,
            Event.reqHandler (methodName req.method) req MitmResponse.fresh] ∧
        sendCalls new = [] ∧ ∀ d, Event.transport d ∉ new) := by
  have h1 := handleBuffer_eq_dispatchFrom .request proto ec raw w
  rw [dispatchFrom_of_not_consumes .request proto ec raw _ w hhooks] at h1
  change handleRequestBuffer proto ec raw w = _ at h1
  by_cases hst : (handler req MitmResponse.fresh).status = Status.UNSET
  · have hrun : handleRequestBuffer proto ec raw w =
        w.log (hookCalls .request raw w.g_hooklibs ++
          [Event.parseRequest raw,
            Event.reqHandler (methodName req.method) req MitmResponse.fresh]) := by
      rw [h1]
      simp only [router, requestRouter, hparse, World.log_g_requestHandlers, hfind, hst,
        World.log_log]
      simp
    refine ⟨_, by rw [hrun]; rfl, rfl, ?_, fun hne => absurd hst hne, fun _ => ⟨rfl, ?_, ?_⟩⟩
    · rw [List.filter_append, filter_isHandler_hookCalls]
      simp [Event.isHandler]
    · rw [sendCalls_append, sendCalls_hookCalls]
      simp [sendCalls]
    · intro d hd
      rcases List.mem_append.1 hd with h2 | h2
      · have := isHook_of_mem_hookCalls .request raw _ _ h2
        simp [Event.isHook] at this
      · simp at h2
  · have hrun : handleRequestBuffer proto ec raw w =
        w.log (hookCalls .request raw w.g_hooklibs ++
          [Event.parseRequest raw,
            Event.reqHandler (methodName req.method) req MitmResponse.fresh] ++
          sendEvents w.g_dataWs.connected ec
            (proto.serializeResponse (handler req MitmResponse.fresh))) := by
      rw [h1]
      simp only [router, requestRouter, hparse, World.log_g_requestHandlers, hfind, hst,
        World.log_log, send_binary_snd, World.log_g_dataWs]
      simp [hst]
    refine ⟨_, by rw [hrun]; rfl, rfl, ?_, fun _ => ⟨rfl, ?_⟩, fun h => absurd h hst⟩
    · rw [List.filter_append, List.filter_append, filter_isHandler_hookCalls,
        filter_isHandler_sendEvents]
      simp [Event.isHandler]
    · rw [sendCalls_append, sendCalls_append, sendCalls_hookCalls, sendCalls_sendEvents]
      simp [sendCalls]

/-- Witness for C4: a LOGIN request reaches the started world, whose LOGIN
handler sets the status. -/
theorem registered_method_invokes_handler_witness :
    mapFind (startedWorld [] true).g_requestHandlers (methodName Method.LOGIN)
      = some loginHandler ∧
    (loginHandler { method := .LOGIN } MitmResponse.fresh).status ≠ Status.UNSET ∧
    ∃ new, (handleRequestBuffer referenceProto false
          (referenceProto.serializeRequest { method := .LOGIN })
          (startedWorld [] true)).trace = (startedWorld [] true).trace ++ new ∧
      MitmResponse.fresh.status = Status.UNSET ∧
      new.filter Event.isHandler =
        [Event.reqHandler (methodName Method.LOGIN) { method := .LOGIN } MitmResponse.fresh] ∧
      ((loginHandler { method := .LOGIN } MitmResponse.fresh).status ≠ Status.UNSET →
        new = hookCalls .request (referenceProto.serializeRequest { method := .LOGIN })
            (startedWorld [] true).g_hooklibs ++
          [Event.parseRequest (referenceProto.serializeRequest { method := .LOGIN }),
            Event.reqHandler (methodName Method.LOGIN) { method := .LOGIN }
              MitmResponse.fresh] ++
          sendEvents true false
            (referenceProto.serializeResponse
              (loginHandler { method := .LOGIN } MitmResponse.fresh)) ∧
        sendCalls new = [referenceProto.serializeResponse
          (loginHandler { method := .LOGIN } MitmResponse.fresh)]) ∧
      ((loginHandler { method := .LOGIN } MitmResponse.fresh).status = Status.UNSET →
        new = hookCalls .request (referenceProto.serializeRequest { method := .LOGIN })
            (startedWorld [] true).g_hooklibs ++
          [Event.parseRequest (referenceProto.serializeRequest { method := .LOGIN }),
            Event.reqHandler (methodName Method.LOGIN) { method := .LOGIN }
              MitmResponse.fresh] ∧
        sendCalls new = [] ∧ ∀ d, Event.transport d ∉ new) :=
  ⟨rfl, by decide,
    registered_method_invokes_handler referenceProto false
      (referenceProto.serializeRequest { method := .LOGIN })
      (startedWorld [] true) { method := .LOGIN } loginHandler
      (by decide)
      (referenceProto_parse_serialize { method := .LOGIN } 8 (by norm_num) (by decide))
      rfl⟩

/-! ## Hook chain -/

/-- C5. Hook chain, non-empty result: when the hooks before `h` in
`g_hooklibs` decline and `h`, capable for the direction, returns 0 with a
non-null `out` and `out_len > 0`, the dispatcher (`handleRequestBuffer` or
`handleResponseBuffer`) logs the invocations of the capable hooks up to `h`
and then makes exactly one `send_binary` call, whose payload is byte for byte
the `out_len` bytes at `out`.  The hook invocations are those up to `h` and no
more: no later hook is invoked. -/
theorem hook_nonempty_result_is_sent (d : Direction) (proto : Proto) (ec : Bool) (raw : Bytes)
    (w : World) (pre post : List HookLib) (h : HookLib) (f : Bytes → HookResult) (buf : Bytes)
    (hlibs : w.g_hooklibs = pre ++ h :: post)
    (hpre : ∀ p ∈ pre, p.consumes d raw = false)
    (hcap : h.capability d = some f)
    (hrc : (f raw).rc = 0) (hout : (f raw).out = some buf) (hlen : 0 < (f raw).out_len) :
    (handleBuffer d proto ec raw w).trace =
        w.trace ++ (hookCalls d raw pre ++ hookEvent d h.path raw ::
          sendEvents w.g_dataWs.connected ec (buf.take (f raw).out_len)) ∧
      sendCalls (hookCalls d raw pre ++ hookEvent d h.path raw ::
          sendEvents w.g_dataWs.connected ec (buf.take (f raw).out_len))
        = [buf.take (f raw).out_len] ∧
      (hookCalls d raw pre ++ hookEvent d h.path raw ::
          sendEvents w.g_dataWs.connected ec (buf.take (f raw).out_len)).filter Event.isHook
        = hookCalls d raw pre ++ [hookEvent d h.path raw] := by
  have hp : (f raw).produced = true := by
    simp [HookResult.produced, hrc, hout, hlen]
  have hb : (f raw).buffer = buf.take (f raw).out_len := by
    simp [HookResult.buffer, hout]
  refine ⟨?_, ?_, ?_⟩
  · rw [handleBuffer_eq_dispatchFrom, hlibs,
      dispatchFrom_of_produced d proto ec raw pre post h f w hpre hcap hp, hb]
    rfl
  · rw [sendCalls_append, sendCalls_hookCalls]
    cases d <;> simp [hookEvent, sendCalls, sendCalls_sendEvents]
  · rw [List.filter_append, filter_isHook_hookCalls]
    cases d <;> simp [hookEvent, Event.isHook, filter_isHook_sendEvents]

/-- Witness for C5: the echo hook behind a failing hook and a library without
entry points, with one more hook after it. -/
theorem hook_nonempty_result_is_sent_witness :
    (∀ p ∈ [failingHook, bareHook], p.consumes .request [7, 9] = false) ∧
    (handleBuffer .request referenceProto false [7, 9]
        (startedWorld [failingHook, bareHook, echoHook, silentHook] true)).trace =
      [Event.hookReq failingHook.path [7, 9], Event.hookReq echoHook.path [7, 9],
        Event.transport [7, 9], Event.send_binary [7, 9] true] :=
  ⟨by decide,
    (hook_nonempty_result_is_sent .request referenceProto false [7, 9]
      (startedWorld [failingHook, bareHook, echoHook, silentHook] true)
      [failingHook, bareHook] [silentHook] echoHook
      (fun raw => { rc := 0, out := some raw, out_len := raw.length }) [7, 9]
      rfl (by decide) rfl rfl rfl (by decide)).1⟩

/-- C6. No double-decode on hook success: when some hook of `g_hooklibs`,
capable for the direction, returns 0 with a non-null `out` and `out_len > 0`
on the buffer, the events of the call contain no envelope decode and no
request or response handler invocation, for either outcome of the send; the
result does not depend on the codec at all. -/
theorem hook_success_skips_router (d : Direction) (proto : Proto) (ec : Bool) (raw : Bytes)
    (w : World) (h : HookLib) (f : Bytes → HookResult) (buf : Bytes)
    (hmem : h ∈ w.g_hooklibs) (hcap : h.capability d = some f)
    (hrc : (f raw).rc = 0) (hout : (f raw).out = some buf) (hlen : 0 < (f raw).out_len) :
    (∃ new, (handleBuffer d proto ec raw w).trace = w.trace ++ new ∧
      ∀ e ∈ new, e.isParse = false ∧ e.isHandler = false) ∧
    ∀ proto2, handleBuffer d proto2 ec raw w = handleBuffer d proto ec raw w := by
  have hc : h.consumes d raw = true :=
    (consumes_iff d raw h).2 ⟨f, hcap, by simp [HookResult.produced, hrc, hout, hlen]⟩
  obtain ⟨pre, g, post, hsplit, hpre, hg⟩ := exists_first_consumer d raw _ h hmem hc
  obtain ⟨k, hkcap, hp⟩ := (consumes_iff d raw g).1 hg
  refine ⟨⟨hookCalls d raw pre ++ hookEvent d g.path raw ::
    sendEvents w.g_dataWs.connected ec (k raw).buffer, ?_, ?_⟩, ?_⟩
  · rw [handleBuffer_eq_dispatchFrom, hsplit,
      dispatchFrom_of_produced d proto ec raw pre post g k w hpre hkcap hp]
    rfl
  · intro e he
    rcases List.mem_append.1 he with h1 | h2
    · exact isParse_hookCalls d raw pre e h1
    · rcases List.mem_cons.1 h2 with rfl | h3
      · cases d <;> simp [hookEvent, Event.isParse, Event.isHandler]
      · exact isParse_sendEvents _ _ _ e h3
  · intro proto2
    rw [handleBuffer_eq_dispatchFrom, handleBuffer_eq_dispatchFrom, hsplit,
      dispatchFrom_of_produced d proto ec raw pre post g k w hpre hkcap hp,
      dispatchFrom_of_produced d proto2 ec raw pre post g k w hpre hkcap hp]

/-- Witness for C6: the echo hook consumes the buffer while the channel is
down, so the send fails. -/
theorem hook_success_skips_router_witness :
    echoHook ∈ (startedWorld [failingHook, echoHook] false).g_hooklibs ∧
    (∃ new, (handleBuffer .response referenceProto true [7, 9]
          (startedWorld [failingHook, echoHook] false)).trace =
        (startedWorld [failingHook, echoHook] false).trace ++ new ∧
      ∀ e ∈ new, e.isParse = false ∧ e.isHandler = false) ∧
    ∀ proto2, handleBuffer .response proto2 true [7, 9]
        (startedWorld [failingHook, echoHook] false) =
      handleBuffer .response referenceProto true [7, 9]
        (startedWorld [failingHook, echoHook] false) :=
  ⟨by simp [startedWorld, registerMainHandlers, addRequestHandler],
    hook_success_skips_router .response referenceProto true [7, 9]
      (startedWorld [failingHook, echoHook] false) echoHook
      (fun raw => { rc := 0, out := some raw, out_len := raw.length }) [7, 9]
      (by simp [startedWorld, registerMainHandlers, addRequestHandler])
      rfl rfl rfl (by decide)⟩

/-- C7, as stated, fails: a hook that returns success with a null `out` does
not stop the chain.  With `silentHook` before `echoHook` the later hook is
invoked and its output is sent; with `silentHook` alone the Message Router
runs, decodes the buffer and forwards the request. -/
theorem hook_empty_result_counterexample :
    (silentHook.capability .request).map (fun f => f [7]) = some ⟨0, none, 0⟩ ∧
    (handleBuffer .request referenceProto false [7]
        (startedWorld [silentHook, echoHook] true)).trace =
      [.hookReq silentHook.path [7], .hookReq echoHook.path [7], .transport [7],
        .send_binary [7] true] ∧
    (handleBuffer .request referenceProto false (referenceProto.serializeRequest {})
        (startedWorld [silentHook] true)).trace =
      [.hookReq silentHook.path (referenceProto.serializeRequest {}),
        .parseRequest (referenceProto.serializeRequest {}),
        .transport (referenceProto.serializeRequest {}),
        .send_binary (referenceProto.serializeRequest {}) true] := by
  refine ⟨rfl, rfl, ?_⟩
  have hdecline : ∀ p ∈ (startedWorld [silentHook] true).g_hooklibs,
      p.consumes .request (referenceProto.serializeRequest {}) = false := by
    intro p hp
    have : p = silentHook := by simpa [startedWorld, registerMainHandlers, addRequestHandler] using hp
    subst this
    rfl
  rw [handleBuffer_eq_dispatchFrom,
    dispatchFrom_of_not_consumes .request referenceProto false
      (referenceProto.serializeRequest {}) _ (startedWorld [silentHook] true) hdecline]
  have hparse := referenceProto_parse_serialize {} 8 (by norm_num) (by decide)
  have hrouter := requestRouter_of_unregistered referenceProto false
    (referenceProto.serializeRequest {})
    ((startedWorld [silentHook] true).log
      (hookCalls .request (referenceProto.serializeRequest {})
        (startedWorld [silentHook] true).g_hooklibs)) {} hparse rfl
  simp only [router]
  rw [hrouter]
  simp [World.log, startedWorld, registerMainHandlers, addRequestHandler, hookCalls,
    HookLib.capability, silentHook, hookEvent, sendEvents]

/-- C7, amended.  Hook chain, empty result: when the hooks before `h` decline
and `h`, capable for the direction, returns 0 with a null `out` or with
`out_len = 0`, the buffer does not count as handled: the dispatcher logs the
invocation and goes on with the hooks after `h`, exactly as after an error, so
the outcome is that of running the same input against the remaining hooks
(and then the Message Router when none of them produces a buffer). -/
theorem hook_empty_result_continues (d : Direction) (proto : Proto) (ec : Bool) (raw : Bytes)
    (w : World) (pre post : List HookLib) (h : HookLib) (f : Bytes → HookResult)
    (hlibs : w.g_hooklibs = pre ++ h :: post)
    (hpre : ∀ p ∈ pre, p.consumes d raw = false)
    (hcap : h.capability d = some f) (_hrc : (f raw).rc = 0)
    (hempty : (f raw).out = none ∨ (f raw).out_len = 0) :
    handleBuffer d proto ec raw w =
      dispatchFrom d proto ec raw post
        (w.log (hookCalls d raw pre ++ [hookEvent d h.path raw])) := by
  have hc : h.consumes d raw = false := by
    unfold HookLib.consumes
    rw [hcap]
    rcases hempty with h1 | h1 <;> simp [HookResult.produced, h1]
  have hall : ∀ p ∈ pre ++ [h], p.consumes d raw = false := by
    intro p hp
    rcases List.mem_append.1 hp with h1 | h1
    · exact hpre p h1
    · simp at h1; subst h1; exact hc
  have hcalls : hookCalls d raw (pre ++ [h]) = hookCalls d raw pre ++ [hookEvent d h.path raw] := by
    rw [hookCalls_append]
    simp [hookCalls, hcap]
  rw [handleBuffer_eq_dispatchFrom, hlibs, ← hcalls]
  unfold dispatchFrom
  rw [show pre ++ h :: post = (pre ++ [h]) ++ post by simp,
    hookLoop_append_of_not_consumes d ec raw (pre ++ [h]) post w hall]

/-- Witness for the amended C7: `silentHook` at the head of the list. -/
theorem hook_empty_result_continues_witness :
    ((fun _ => { rc := 0, out := none, out_len := 0 } : Bytes → HookResult) [7, 9]).out = none ∧
    handleBuffer .request referenceProto false [7, 9]
        (startedWorld [silentHook, echoHook] true) =
      dispatchFrom .request referenceProto false [7, 9] [echoHook]
        ((startedWorld [silentHook, echoHook] true).log
          (hookCalls .request [7, 9] [] ++ [hookEvent .request silentHook.path [7, 9]])) :=
  ⟨rfl,
    hook_empty_result_continues .request referenceProto false [7, 9]
      (startedWorld [silentHook, echoHook] true) [] [echoHook] silentHook
      (fun _ => { rc := 0, out := none, out_len := 0 })
      rfl (by decide) rfl rfl (Or.inl rfl)⟩

/-- C8. Hook chain, error: when every hook of a leading part `pre` of
`g_hooklibs` is not capable for the direction or returns a non-zero code, the
outcome of the call equals the outcome of running the same input against the
remaining hooks, after the invocations of the capable hooks of `pre` were
logged; when no hook remains, control passes to the Message Router. -/
theorem hook_error_continues (d : Direction) (proto : Proto) (ec : Bool) (raw : Bytes)
    (w : World) (pre rest : List HookLib) (hlibs : w.g_hooklibs = pre ++ rest)
    (herr : ∀ h ∈ pre, ∀ f, h.capability d = some f → (f raw).rc ≠ 0) :
    handleBuffer d proto ec raw w =
        dispatchFrom d proto ec raw rest (w.log (hookCalls d raw pre)) ∧
      (rest = [] → handleBuffer d proto ec raw w =
        router d proto ec raw (w.log (hookCalls d raw w.g_hooklibs))) := by
  have hpre : ∀ p ∈ pre, p.consumes d raw = false := by
    intro p hp
    unfold HookLib.consumes
    cases hcap : p.capability d with
    | none => rfl
    | some f => simp [HookResult.produced, herr p hp f hcap]
  have hmain : handleBuffer d proto ec raw w =
      dispatchFrom d proto ec raw rest (w.log (hookCalls d raw pre)) := by
    rw [handleBuffer_eq_dispatchFrom, hlibs]
    unfold dispatchFrom
    rw [hookLoop_append_of_not_consumes d ec raw pre rest w hpre]
  refine ⟨hmain, ?_⟩
  intro hnil
  subst hnil
  rw [hmain, hlibs, List.append_nil]
  unfold dispatchFrom
  rw [hookLoop_nil]

/-- Witness for C8: a failing hook and a library without entry points, with
nothing after them. -/
theorem hook_error_continues_witness :
    (∀ h ∈ [failingHook, bareHook], ∀ f, h.capability .request = some f → (f [7, 9]).rc ≠ 0) ∧
    handleBuffer .request referenceProto false [7, 9]
        (startedWorld [failingHook, bareHook] true) =
      dispatchFrom .request referenceProto false [7, 9] []
        ((startedWorld [failingHook, bareHook] true).log
          (hookCalls .request [7, 9] [failingHook, bareHook])) ∧
    (([] : List HookLib) = [] →
      handleBuffer .request referenceProto false [7, 9]
        (startedWorld [failingHook, bareHook] true) =
      router .request referenceProto false [7, 9]
        ((startedWorld [failingHook, bareHook] true).log
          (hookCalls .request [7, 9] (startedWorld [failingHook, bareHook] true).g_hooklibs))) :=
  ⟨by simp [failingHook, bareHook, HookLib.capability],
    hook_error_continues .request referenceProto false [7, 9]
      (startedWorld [failingHook, bareHook] true) [failingHook, bareHook] [] rfl
      (by simp [failingHook, bareHook, HookLib.capability])⟩

/-! ## Connector backoff -/

/-- C9, as stated, fails: seven failed connect attempts in a row from the
start of the connector wait 1, 2, 4, 8, 16, 32, 32 seconds; the sixth wait is
32, above 30. -/
theorem connector_backoff_cap_counterexample :
    sleepsSeconds (connector referenceProto {} (List.replicate 7 failedPass)
      (startedWorld [] false)).2.trace = [1, 2, 4, 8, 16, 32, 32] := by
  decide

/-- C9, amended.  Backoff sequence and cap: in the connector loop the wait
applied to the k-th failed connect attempt in a row from the start of the
connector follows 1, 2, 4, 8, 16, 32, 32, …: it starts at 1, doubles on each
failure while it is below 30 and never exceeds 32. -/
theorem connector_backoff_sequence (proto : Proto) (cfg : Config) (envs : List ConnectorEnv)
    (w : World) (hrun : w.g_running = true) (hconn : is_connected w = false)
    (hfail : ∀ e ∈ envs, e.getConnectionEc = true ∧ e.callback ≠ some true) :
    ∃ new, (connector proto cfg envs w).2.trace = w.trace ++ new ∧
      sleepsSeconds new = (List.range envs.length).map backoffAfter ∧
      (∀ s ∈ sleepsSeconds new, 1 ≤ s ∧ s ≤ 32) ∧
      (∀ k, 5 ≤ k → k < envs.length → (sleepsSeconds new).get? k = some 32) := by
  obtain ⟨new, htr, hsl, -, -⟩ := connectorLoop_failed proto cfg envs 0 w hrun hconn hfail
  have hb0 : backoffAfter 0 = 1 := by decide
  rw [hb0] at htr
  refine ⟨new, htr, by simpa using hsl, ?_, ?_⟩
  · intro s hs
    rw [hsl] at hs
    obtain ⟨k, -, rfl⟩ := List.mem_map.1 hs
    exact backoffAfter_bounds _
  · intro k h5 hk
    rw [hsl]
    simp [List.getElem?_map, List.getElem?_range hk, backoffAfter]
    omega

/-- Witness for the amended C9: eight failed passes. -/
theorem connector_backoff_sequence_witness :
    (∀ e ∈ List.replicate 8 failedPass, e.getConnectionEc = true ∧ e.callback ≠ some true) ∧
    ∃ new, (connector referenceProto {} (List.replicate 8 failedPass)
          (startedWorld [] false)).2.trace = (startedWorld [] false).trace ++ new ∧
      sleepsSeconds new = (List.range (List.replicate 8 failedPass).length).map backoffAfter ∧
      (∀ s ∈ sleepsSeconds new, 1 ≤ s ∧ s ≤ 32) ∧
      (∀ k, 5 ≤ k → k < (List.replicate 8 failedPass).length →
        (sleepsSeconds new).get? k = some 32) :=
  ⟨by decide,
    connector_backoff_sequence referenceProto {} (List.replicate 8 failedPass)
      (startedWorld [] false) rfl rfl (by decide)⟩

/-- C10, as stated, fails: after two failed attempts and a successful one the
backoff is 4, not 1, and the failed attempt that follows the success (once the
channel has opened and dropped again) waits 4 seconds. -/
theorem connector_backoff_reset_counterexample :
    (connector referenceProto {} [failedPass, failedPass, connectPass]
      (startedWorld [] false)).1 = 4 ∧
    sleepsSeconds (connector referenceProto {}
      [failedPass, failedPass, connectPass, openedPass, droppedFailedPass]
      (startedWorld [] false)).2.trace = [1, 2, 2, 2, 4] := by
  decide

/-- C10, amended.  No backoff reset: a successful connect attempt leaves the
connector's backoff as it is, and so does every later pass without a connect
failure; the first failed attempt that follows a success waits the value the
backoff had reached through the failures before the success (1 only when no
failure preceded). -/
theorem connector_backoff_kept_after_success (proto : Proto) (cfg : Config)
    (pre mid : List ConnectorEnv) (ok down : ConnectorEnv) (w : World)
    (hrun : w.g_running = true) (hconn : is_connected w = false)
    (hpre : ∀ e ∈ pre, e.getConnectionEc = true ∧ e.callback ≠ some true)
    (hok : ok.getConnectionEc = false ∧ ok.callback ≠ some true)
    (hmid : ∀ e ∈ mid, e.getConnectionEc = false)
    (hfail : down.getConnectionEc = true)
    (hdown : down.callback = some false ∨ (down.callback = none ∧
      is_connected (connector proto cfg (pre ++ ok :: mid) w).2 = false)) :
    (∃ new, (connector proto cfg (pre ++ [ok]) w).2.trace =
      (connector proto cfg pre w).2.trace ++
        Event.connect (cfg.rotom.worker_endpoint ++ "/") true :: new) ∧
    (connector proto cfg (pre ++ ok :: mid) w).1 = backoffAfter pre.length ∧
    (connector proto cfg (pre ++ ok :: mid ++ [down]) w).2.trace =
      (connector proto cfg (pre ++ ok :: mid) w).2.trace ++
        [Event.connect (cfg.rotom.worker_endpoint ++ "/") false,
          Event.sleep_seconds (backoffAfter pre.length)] := by
  obtain ⟨new, -, -, hb, hc⟩ := connectorLoop_failed proto cfg pre 0 w hrun hconn hpre
  have hb0 : backoffAfter 0 = 1 := by decide
  rw [hb0, Nat.zero_add] at hb
  rw [hb0] at hc
  have hrun1 : (connectorLoop proto cfg pre 1 w).2.g_running = true := by
    rw [connectorLoop_g_running]; exact hrun
  have hkeep : (connector proto cfg (pre ++ ok :: mid) w).1 = backoffAfter pre.length := by
    unfold connector
    rw [connectorLoop_append, connectorLoop_fst_of_no_error, hb]
    intro e he
    rcases List.mem_cons.1 he with rfl | h2
    · exact hok.1
    · exact hmid e h2
  refine ⟨?_, hkeep, ?_⟩
  · obtain ⟨new2, h2⟩ := connectorIter_connected proto cfg ok
      (connectorLoop proto cfg pre 1 w).1 (connectorLoop proto cfg pre 1 w).2 hc hok.1 hok.2
    refine ⟨new2, ?_⟩
    unfold connector
    rw [connectorLoop_append, connectorLoop_cons _ _ _ _ _ _ hrun1]
    exact h2
  · have hrun2 : (connector proto cfg (pre ++ ok :: mid) w).2.g_running = true := by
      unfold connector
      rw [connectorLoop_g_running]; exact hrun
    have happ : connector proto cfg (pre ++ ok :: mid ++ [down]) w =
        connectorIter proto cfg down (connector proto cfg (pre ++ ok :: mid) w).1
          (connector proto cfg (pre ++ ok :: mid) w).2 := by
      unfold connector at hrun2 ⊢
      rw [show pre ++ ok :: mid ++ [down] = (pre ++ ok :: mid) ++ [down] by simp,
        connectorLoop_append, connectorLoop_cons _ _ _ _ _ _ hrun2]
      rfl
    rw [happ, connectorIter_failed proto cfg down _ _ hfail hdown, hkeep]

/-- Witness for the amended C10: two failures, a success, the open callback,
then the close callback and a failure. -/
theorem connector_backoff_kept_after_success_witness :
    (connector referenceProto {} ([failedPass, failedPass] ++ connectPass :: [openedPass])
      (startedWorld [] false)).1 = backoffAfter 2 ∧
    (connector referenceProto {}
        ([failedPass, failedPass] ++ connectPass :: [openedPass] ++ [droppedFailedPass])
        (startedWorld [] false)).2.trace =
      (connector referenceProto {} ([failedPass, failedPass] ++ connectPass :: [openedPass])
        (startedWorld [] false)).2.trace ++
        [Event.connect ("ws://127.0.0.1:9001" ++ "/") false, Event.sleep_seconds (backoffAfter 2)] :=
  (connector_backoff_kept_after_success referenceProto {} [failedPass, failedPass] [openedPass]
    connectPass droppedFailedPass (startedWorld [] false) rfl rfl (by decide) (by decide)
    (by decide) rfl (Or.inl rfl)).2

/-! ## Data-channel client and send queue -/

/-- C11. `WsDataClient::send_binary` returns false and hands nothing to the
transport when the state is not Connected; when the state is Connected it
makes exactly one transport send of the given bytes and returns true if and
only if the transport reports no error.  Nothing but the trace changes: the
data is never put in the send queue, and the connection state is left as it
is. -/
theorem send_binary_contract (ec : Bool) (data : Bytes) (w : World) :
    (send_binary ec data w).1 = (w.g_dataWs.connected && !ec) ∧
    (send_binary ec data w).2 = w.log
      (if w.g_dataWs.connected then [Event.transport data, Event.send_binary data (!ec)]
        else [Event.send_binary data false]) ∧
    (send_binary ec data w).2.g_sendQueue = w.g_sendQueue ∧
    (send_binary ec data w).2.g_dataWs = w.g_dataWs := by
  refine ⟨send_binary_fst ec data w, ?_, ?_, ?_⟩
  · rw [send_binary_snd]
    cases w.g_dataWs.connected <;> cases ec <;> rfl
  · rw [send_binary_snd]; rfl
  · rw [send_binary_snd]; rfl

/-- C12. `SendQueue` is FIFO.  For every sequence of calls on a queue that
starts empty, the items pushed are the items the successful `wait_pop` calls
returned, in the same order and each once, followed by the items still queued;
`size()` is the number of pushes minus the number of successful pops.  In
particular, pushing `items` and then calling `wait_pop` as many times returns
exactly `items`, in order, and leaves the queue empty. -/
theorem sendQueue_fifo (ops : List QueueOp) (items : List SendItem) (c : Bool) :
    pushedItems ops =
        poppedItems (SendQueue.run { q_ := [], closed_ := c } ops).2 ++
          (SendQueue.run { q_ := [], closed_ := c } ops).1.q_ ∧
    (SendQueue.run { q_ := [], closed_ := c } ops).1.size =
        (pushedItems ops).length -
          (poppedItems (SendQueue.run { q_ := [], closed_ := c } ops).2).length ∧
    SendQueue.run { q_ := [], closed_ := c }
        (items.map QueueOp.push ++ List.replicate items.length QueueOp.wait_pop) =
      ({ q_ := [], closed_ := c },
        List.replicate items.length QueueRet.done ++ items.map QueueRet.popped) := by
  have hbooks := SendQueue.run_books ops { q_ := [], closed_ := c }
  simp only [List.nil_append] at hbooks
  refine ⟨hbooks, ?_, ?_⟩
  · rw [hbooks, List.length_append, SendQueue.size]
    omega
  · rw [SendQueue.run_append, SendQueue.run_pushes]
    simp only [List.nil_append]
    rw [SendQueue.run_pops]

/-- C13. Queue closure is one-way and terminal.  After `close()` the queue is
closed and stays closed under every later sequence of `push`, `wait_pop`,
`size` and `close` calls; `wait_pop` returns false exactly when the queue is
closed and empty; and the items in the queue at close time are returned by the
following `wait_pop` calls, in order, before one returns false. -/
theorem sendQueue_close_terminal (s : SendQueue) (ops : List QueueOp) :
    (s.close.run ops).1.closed_ = true ∧
    ((s.call QueueOp.wait_pop).2 = QueueRet.noItem ↔ (s.closed_ = true ∧ s.q_ = [])) ∧
    (s.close.run (List.replicate (s.q_.length + 1) QueueOp.wait_pop)).2 =
      s.q_.map QueueRet.popped ++ [QueueRet.noItem] := by
  refine ⟨SendQueue.run_closed ops s.close rfl, ?_, ?_⟩
  · obtain ⟨q, c⟩ := s
    cases q with
    | nil => cases c <;> simp [SendQueue.call, SendQueue.wait_pop]
    | cons x xs => simp [SendQueue.call, SendQueue.wait_pop]
  · obtain ⟨q, c⟩ := s
    rw [show List.replicate (q.length + 1) QueueOp.wait_pop =
      List.replicate q.length QueueOp.wait_pop ++ [QueueOp.wait_pop] from
        List.replicate_succ' _ _]
    rw [SendQueue.run_append]
    simp only [SendQueue.close]
    rw [SendQueue.run_pops]
    simp [SendQueue.run, SendQueue.call, SendQueue.wait_pop]

/-! ## Message router, continued -/

/-- C14. Decode failure is terminal for the single message: when no hook
consumes the buffer and the buffer fails to decode as a Request (in
`handleRequestBuffer`) or as a Response (in `handleResponseBuffer`), the call
only logs the hook invocations and the failed decode.  No `send_binary` call is
made, nothing reaches the transport, no handler is invoked, and the handler
tables and the delivery queue are unchanged. -/
theorem decode_failure_drops_message (d : Direction) (proto : Proto) (ec : Bool) (raw : Bytes)
    (w : World) (hhooks : ∀ h ∈ w.g_hooklibs, h.consumes d raw = false)
    (hfail : decodeFails proto d raw) :
    handleBuffer d proto ec raw w =
        w.log (hookCalls d raw w.g_hooklibs ++ [parseEvent d raw]) ∧
      sendCalls (hookCalls d raw w.g_hooklibs ++ [parseEvent d raw]) = [] ∧
      (∀ data, Event.transport data ∉ hookCalls d raw w.g_hooklibs ++ [parseEvent d raw]) ∧
      (hookCalls d raw w.g_hooklibs ++ [parseEvent d raw]).filter Event.isHandler = [] ∧
      (handleBuffer d proto ec raw w).g_requestHandlers = w.g_requestHandlers ∧
      (handleBuffer d proto ec raw w).g_responseHandlers = w.g_responseHandlers ∧
      (handleBuffer d proto ec raw w).g_sendQueue = w.g_sendQueue := by
  have hrun := handleBuffer_of_decodeFails d proto ec raw w hhooks hfail
  refine ⟨hrun, ?_, ?_, ?_, ?_, ?_, ?_⟩
  · rw [sendCalls_append, sendCalls_hookCalls]
    cases d <;> rfl
  · intro data hmem
    rcases List.mem_append.1 hmem with h1 | h1
    · have := isHook_of_mem_hookCalls d raw _ _ h1
      simp [Event.isHook] at this
    · cases d <;> simp [parseEvent] at h1
  · rw [List.filter_append, filter_isHandler_hookCalls]
    cases d <;> rfl
  · rw [hrun]; rfl
  · rw [hrun]; rfl
  · rw [hrun]; rfl

/-- Witness for C14: the one-byte buffer `[42]`, which the reference codec
rejects, behind a hook that declines. -/
theorem decode_failure_drops_message_witness :
    (∀ h ∈ (startedWorld [silentHook] true).g_hooklibs, h.consumes .response [42] = false) ∧
    decodeFails referenceProto .response [42] ∧
    handleBuffer .response referenceProto false [42] (startedWorld [silentHook] true) =
      (startedWorld [silentHook] true).log
        [Event.hookResp silentHook.path [42], Event.parseResponse [42]] :=
  ⟨by decide, referenceProto_decodeFails .response,
    (decode_failure_drops_message .response referenceProto false [42]
      (startedWorld [silentHook] true) (by decide) (referenceProto_decodeFails .response)).1⟩

/-- C15. Response path of the router: when no hook consumes the buffer and
the buffer decodes as a Response, `handleResponseBuffer` looks the response
handler table up under `std::to_string((int)resp.status())`.  With an entry
under that key the handler is invoked once with the decoded Response and
nothing is sent; without one the re-encoded Response is forwarded in exactly
one `send_binary` call and no handler is invoked. -/
theorem response_dispatch_or_forward (proto : Proto) (ec : Bool) (raw : Bytes) (w : World)
    (resp : MitmResponse)
    (hhooks : ∀ h ∈ w.g_hooklibs, h.consumes .response raw = false)
    (hparse : proto.parseResponse raw (toInt32 raw.length) = some resp) :
    ((mapFind w.g_responseHandlers (toString (proto.statusValue resp.status))).isSome = true →
      handleResponseBuffer proto ec raw w =
        w.log (hookCalls .response raw w.g_hooklibs ++
          [Event.parseResponse raw,
            Event.respHandler (toString (proto.statusValue resp.status)) resp]) ∧
      sendCalls (hookCalls .response raw w.g_hooklibs ++
          [Event.parseResponse raw,
            Event.respHandler (toString (proto.statusValue resp.status)) resp]) = [] ∧
      (hookCalls .response raw w.g_hooklibs ++
          [Event.parseResponse raw,
            Event.respHandler (toString (proto.statusValue resp.status)) resp]).filter
        Event.isHandler = [Event.respHandler (toString (proto.statusValue resp.status)) resp]) ∧
    (mapFind w.g_responseHandlers (toString (proto.statusValue resp.status)) = none →
      handleResponseBuffer proto ec raw w =
        w.log (hookCalls .response raw w.g_hooklibs ++ Event.parseResponse raw ::
          sendEvents w.g_dataWs.connected ec (proto.serializeResponse resp)) ∧
      sendCalls (hookCalls .response raw w.g_hooklibs ++ Event.parseResponse raw ::
          sendEvents w.g_dataWs.connected ec (proto.serializeResponse resp)) =
        [proto.serializeResponse resp] ∧
      (hookCalls .response raw w.g_hooklibs ++ Event.parseResponse raw ::
          sendEvents w.g_dataWs.connected ec (proto.serializeResponse resp)).filter
        Event.isHandler = []) := by
  constructor
  · intro hsome
    obtain ⟨handler, hfind⟩ := Option.isSome_iff_exists.1 hsome
    refine ⟨handleResponseBuffer_of_registered proto ec raw w resp handler hhooks hparse hfind,
      ?_, ?_⟩
    · rw [sendCalls_append, sendCalls_hookCalls]; rfl
    · rw [List.filter_append, filter_isHandler_hookCalls]; rfl
  · intro hfind
    refine ⟨handleResponseBuffer_of_unregistered proto ec raw w resp hhooks hparse hfind,
      ?_, ?_⟩
    · rw [sendCalls_append, sendCalls_hookCalls]
      simp [sendCalls, sendCalls_sendEvents]
    · rw [List.filter_append, filter_isHandler_hookCalls]
      simp [Event.isHandler, filter_isHandler_sendEvents]

/-- Witness for C15: a SUCCESS response (status value 200) reaches the started
world.  Without a response handler it is forwarded; with a handler registered
under `"200"` the handler is invoked and nothing is sent. -/
theorem response_dispatch_or_forward_witness :
    mapFind (startedWorld [silentHook] true).g_responseHandlers
      (toString (referenceProto.statusValue Status.SUCCESS)) = none ∧
    handleResponseBuffer referenceProto false
        (referenceProto.serializeResponse ⟨.SUCCESS, none, none⟩)
        (startedWorld [silentHook] true) =
      (startedWorld [silentHook] true).log
        (hookCalls .response (referenceProto.serializeResponse ⟨.SUCCESS, none, none⟩)
            (startedWorld [silentHook] true).g_hooklibs ++
          Event.parseResponse (referenceProto.serializeResponse ⟨.SUCCESS, none, none⟩) ::
          sendEvents true false (referenceProto.serializeResponse ⟨.SUCCESS, none, none⟩)) ∧
    handleResponseBuffer referenceProto false
        (referenceProto.serializeResponse ⟨.SUCCESS, none, none⟩)
        (addResponseHandler "200" (fun _ => ()) (startedWorld [silentHook] true)) =
      (addResponseHandler "200" (fun _ => ()) (startedWorld [silentHook] true)).log
        (hookCalls .response (referenceProto.serializeResponse ⟨.SUCCESS, none, none⟩)
            (startedWorld [silentHook] true).g_hooklibs ++
          [Event.parseResponse (referenceProto.serializeResponse ⟨.SUCCESS, none, none⟩),
            Event.respHandler "200" ⟨.SUCCESS, none, none⟩]) :=
  ⟨rfl,
    ((response_dispatch_or_forward referenceProto false
      (referenceProto.serializeResponse ⟨.SUCCESS, none, none⟩)
      (startedWorld [silentHook] true) ⟨.SUCCESS, none, none⟩ (by decide)
      (referenceProto_parseResponse_serialize ⟨.SUCCESS, none, none⟩ 8 (by norm_num)
        (by decide))).2 rfl).1,
    ((response_dispatch_or_forward referenceProto false
      (referenceProto.serializeResponse ⟨.SUCCESS, none, none⟩)
      (addResponseHandler "200" (fun _ => ()) (startedWorld [silentHook] true))
      ⟨.SUCCESS, none, none⟩ (by decide)
      (referenceProto_parseResponse_serialize ⟨.SUCCESS, none, none⟩ 8 (by norm_num)
        (by decide))).1 rfl).1⟩

/-- C16. LOGIN scenario: with the handlers registered by `main` and no hook
consuming the buffer, a buffer that decodes to a Request with method LOGIN
makes `handleRequestBuffer` call `send_binary` exactly once, on the encoding of
a Response whose status is SUCCESS and whose login response carries the worker
id of the login request. -/
theorem login_request_is_answered (proto : Proto) (ec : Bool) (raw : Bytes) (w0 : World)
    (req : MitmRequest)
    (hhooks : ∀ h ∈ w0.g_hooklibs, h.consumes .request raw = false)
    (hparse : proto.parseRequest raw (toInt32 raw.length) = some req)
    (hlogin : req.method = Method.LOGIN) :
    ∃ new resp, (handleRequestBuffer proto ec raw (registerMainHandlers w0)).trace =
        w0.trace ++ new ∧
      sendCalls new = [proto.serializeResponse resp] ∧
      resp.status = Status.SUCCESS ∧
      resp.login_response.map (fun lr => lr.worker_id) = some req.login_request.worker_id := by
  have hfind : mapFind (registerMainHandlers w0).g_requestHandlers (methodName req.method)
      = some loginHandler := by
    rw [hlogin]
    exact mapFind_registerMainHandlers_login w0
  have hst : (loginHandler req MitmResponse.fresh).status ≠ Status.UNSET := by
    simp [loginHandler]
  have hrun := handleRequestBuffer_of_registered proto ec raw (registerMainHandlers w0) req
    loginHandler hhooks hparse hfind hst
  refine ⟨_, loginHandler req MitmResponse.fresh, by rw [hrun]; rfl, ?_, rfl, rfl⟩
  rw [sendCalls_append, sendCalls_append, sendCalls_hookCalls, sendCalls_sendEvents]
  simp [sendCalls]

/-- Witness for C16: a LOGIN request of worker `w1`. -/
theorem login_request_is_answered_witness :
    ∃ new resp, (handleRequestBuffer referenceProto false
          (referenceProto.serializeRequest
            { method := .LOGIN, login_request := { worker_id := "w1" } })
          (registerMainHandlers
            { g_hooklibs := [silentHook], g_dataWs := { connected := true } })).trace =
        [] ++ new ∧
      sendCalls new = [referenceProto.serializeResponse resp] ∧
      resp.status = Status.SUCCESS ∧
      resp.login_response.map (fun lr => lr.worker_id) = some "w1" :=
  login_request_is_answered referenceProto false
    (referenceProto.serializeRequest { method := .LOGIN, login_request := { worker_id := "w1" } })
    { g_hooklibs := [silentHook], g_dataWs := { connected := true } }
    { method := .LOGIN, login_request := { worker_id := "w1" } }
    (by decide)
    (referenceProto_parse_serialize
      { method := .LOGIN, login_request := { worker_id := "w1" } } 32 (by norm_num) (by decide))
    rfl

/-! ## Scanner, configuration, handshake and shim -/

/-- C17, the code at the failing input.  With the default threshold a regular,
readable file whose `fs::file_size` is 2147483648 (2 GiB) or 4294967296
(4 GiB) is not pushed, whatever its contents: `(int)sz` is -2147483648 resp. 0,
below 512.  A 600-byte file is pushed with its path and contents. -/
theorem scan_skips_file_of_two_gib (w : World) (path : String) (contents : Bytes) :
    toInt32 2147483648 = -2147483648 ∧
    scanEntries defaultMinSize
        [{ path := path, file_size := 2147483648, contents := contents }] w = w ∧
    scanEntries defaultMinSize
        [{ path := path, file_size := 4294967296, contents := contents }] w = w ∧
    scanEntries defaultMinSize
        [{ path := path, file_size := 600, contents := contents }] w =
      { w with g_sendQueue := w.g_sendQueue.push { path := path, payload := contents } } := by
  have h1 : toInt32 2147483648 = -2147483648 := by decide
  have h2 : toInt32 4294967296 = 0 := by decide
  have h3 : toInt32 600 = 600 := by decide
  refine ⟨h1, ?_, ?_, ?_⟩
  · simp [scanEntries, h1, defaultMinSize]
  · simp [scanEntries, h2, defaultMinSize]
  · simp [scanEntries, h3, defaultMinSize]

/-- C18, the code at the failing input.  `readConfig` returns the defaults
when the file cannot be opened or does not parse, but a type error raised
after a field was assigned leaves that field changed: with `rotom.secret` a
number, the returned `worker_endpoint` is the one read from the file, not the
default. -/
theorem readConfig_keeps_fields_read_before_type_error :
    readConfig .cannotOpen = {} ∧
    readConfig .malformed = {} ∧
    readConfig (.parsed configWithNumericSecret) =
      { rotom := { worker_endpoint := "ws://10.0.0.5:9001" } } ∧
    (readConfig (.parsed configWithNumericSecret)).rotom.worker_endpoint
      ≠ ({} : Config).rotom.worker_endpoint := by
  decide

/-- C19, the code at the failing input.  In a connector pass that starts from
a non-Connected state and in which `connect` succeeds, `sendWelcome` runs
before the open callback has marked the state Connected: `send_binary` refuses
the welcome message, nothing is handed to the transport and the state is still
not Connected after the pass.  Once the open callback has run, a pass only
sleeps, so the welcome is not sent later either.  In every pass, a frame on
the transport requires that the open callback ran between `connect` and
`sendWelcome`. -/
theorem connector_welcome_is_refused (proto : Proto) (cfg : Config) (backoff : Int)
    (w : World) (ec : Bool) :
    (connectorIter proto cfg ⟨none, false, false, ec⟩ backoff
        { w with g_dataWs := { connected := false } }).2 =
      { w with
        g_dataWs := { connected := false }
        trace := w.trace ++ Event.connect (cfg.rotom.worker_endpoint ++ "/") true ::
          (refusedWelcome proto cfg ++ [Event.sleep_seconds 2]) } ∧
    (∀ d, Event.transport d ∉ Event.connect (cfg.rotom.worker_endpoint ++ "/") true ::
      (refusedWelcome proto cfg ++ [Event.sleep_seconds 2])) ∧
    (∀ g o, (connectorIter proto cfg ⟨some true, g, o, ec⟩ backoff w).2 =
      { w with g_dataWs := { connected := true }, trace := w.trace ++ [Event.sleep_seconds 2] }) ∧
    (∀ env : ConnectorEnv, ∃ new,
      (connectorIter proto cfg env backoff w).2.trace = w.trace ++ new ∧
      ∀ d, Event.transport d ∈ new → env.openedInBetween = true) := by
  obtain ⟨run, q, ⟨conn⟩, hooks, rh, sh, tr⟩ := w
  refine ⟨?_, ?_, ?_, ?_⟩
  · simp only [connectorIter, is_connected, connect, sendWelcome, refusedWelcome, welcomeOf]
    cases proto.serializeWelcome _ <;> simp [send_binary, World.log]
  · intro d hd
    unfold refusedWelcome at hd
    cases hs : proto.serializeWelcome (welcomeOf cfg) with
    | none => rw [hs] at hd; simp at hd
    | some v => rw [hs] at hd; simp at hd
  · intro g o
    simp [connectorIter, is_connected, World.log]
  · intro env
    obtain ⟨cb, gce, oib, e2⟩ := env
    cases oib
    · -- the open callback did not run in between: nothing reaches the transport
      have key : ∀ c : Bool, ∃ new,
          (connectorIter proto cfg ⟨none, gce, false, e2⟩ backoff
            ⟨run, q, ⟨c⟩, hooks, rh, sh, tr⟩).2.trace = tr ++ new ∧
          ∀ d, Event.transport d ∉ new := by
        intro c
        cases c <;> cases gce
        · simp only [connectorIter, is_connected, connect, sendWelcome]
          cases proto.serializeWelcome _
          · exact ⟨[Event.connect (cfg.rotom.worker_endpoint ++ "/") true,
              Event.sleep_seconds 2], by simp [World.log], by simp⟩
          · rename_i v
            exact ⟨[Event.connect (cfg.rotom.worker_endpoint ++ "/") true,
              Event.send_binary v false, Event.sleep_seconds 2],
              by simp [send_binary, World.log], by simp⟩
        · exact ⟨[Event.connect (cfg.rotom.worker_endpoint ++ "/") false,
            Event.sleep_seconds backoff],
            by simp [connectorIter, is_connected, connect, World.log], by simp⟩
        · exact ⟨[Event.sleep_seconds 2], by simp [connectorIter, is_connected, World.log],
            by simp⟩
        · exact ⟨[Event.sleep_seconds 2], by simp [connectorIter, is_connected, World.log],
            by simp⟩
      rcases cb with _ | c
      · obtain ⟨new, h1, h2⟩ := key conn
        exact ⟨new, h1, fun d hd => absurd hd (h2 d)⟩
      · obtain ⟨new, h1, h2⟩ := key c
        refine ⟨new, ?_, fun d hd => absurd hd (h2 d)⟩
        simpa [connectorIter] using h1
    · -- the open callback ran in between: the conclusion holds by itself
      have htr : ∃ new, (connectorIter proto cfg ⟨cb, gce, true, e2⟩ backoff
          ⟨run, q, ⟨conn⟩, hooks, rh, sh, tr⟩).2.trace = tr ++ new := by
        rcases cb with _ | c
        · cases conn <;> cases gce <;>
            simp only [connectorIter, is_connected, connect, sendWelcome] <;>
            first
            | exact ⟨_, rfl⟩
            | (cases proto.serializeWelcome _ <;> cases e2 <;>
                simp [send_binary, World.log])
        · cases c <;> cases gce <;>
            simp only [connectorIter, is_connected, connect, sendWelcome] <;>
            first
            | exact ⟨_, rfl⟩
            | (cases proto.serializeWelcome _ <;> cases e2 <;>
                simp [send_binary, World.log])
      obtain ⟨new, h1⟩ := htr
      exact ⟨new, h1, fun _ _ => rfl⟩

/-- C20. The shim `HandleRequest` echoes when no real handler answers.  With
no real `HandleRequest` resolved, or with one that returns a non-zero code, a
non-null input of length `n > 0` gives, when `malloc` succeeds, return code 0
and an output buffer of length `n` whose bytes equal the input.  A null input
or a length of 0 gives return code 0 with a null output and length 0, whatever
handler is resolved. -/
theorem shim_handleRequest_echoes (real : Option real_handle_fn) (data : Bytes)
    (hn : 0 < data.length) (hreal : ∀ f, real = some f → (f data).rc ≠ 0) :
    Shim.HandleRequest real true (some data) data.length =
        { rc := 0, out := some data, out_len := data.length } ∧
      (∀ anyReal mallocOk n, Shim.HandleRequest anyReal mallocOk none n =
        { rc := 0, out := none, out_len := 0 }) ∧
      (∀ anyReal mallocOk input, Shim.HandleRequest anyReal mallocOk input 0 =
        { rc := 0, out := none, out_len := 0 }) := by
  refine ⟨?_, ?_, ?_⟩
  · have hne : data.length ≠ 0 := by omega
    cases real with
    | none => simp [Shim.HandleRequest, Shim.echo, hne]
    | some f =>
      have hrc : (f data).rc ≠ 0 := hreal f rfl
      simp [Shim.HandleRequest, Shim.echo, hne, hrc]
  · intro anyReal mallocOk n
    rfl
  · intro anyReal mallocOk input
    cases input <;> simp [Shim.HandleRequest]

/-- Witness for C20: a real handler that fails on a three-byte input. -/
theorem shim_handleRequest_echoes_witness :
    0 < ([1, 2, 3] : Bytes).length ∧
    (∀ f, some (fun _ => ({ rc := -1, out := none, out_len := 0 } : HookResult)) = some f →
      (f [1, 2, 3]).rc ≠ 0) ∧
    Shim.HandleRequest (some (fun _ => { rc := -1, out := none, out_len := 0 })) true
        (some [1, 2, 3]) 3 = { rc := 0, out := some [1, 2, 3], out_len := 3 } :=
  ⟨by decide, by intro f hf; cases hf; decide,
    (shim_handleRequest_echoes (some (fun _ => { rc := -1, out := none, out_len := 0 }))
      [1, 2, 3] (by decide) (by intro f hf; cases hf; decide)).1⟩

/-- C21, as stated, fails: with an entry whose query raises an exception
listed before it, an eligible file (regular, 600 bytes, readable, raising no
exception itself) is pushed in neither of two consecutive passes, while the
file listed before that entry is pushed twice. -/
theorem scan_pass_stops_at_exception_counterexample :
    DirEntry.enqueued defaultMinSize
      { path := "/data/local/tmp/rotom_inbox/late.bin", file_size := 600,
        contents := sampleContents 600 } = true ∧
    ({ path := "/data/local/tmp/rotom_inbox/late.bin", file_size := 600,
        contents := sampleContents 600 } : DirEntry) ∈ blockedIntake ∧
    (scanDirLoopIter defaultMinSize blockedIntake
        (scanDirLoopIter defaultMinSize blockedIntake (startedWorld [] false))).g_sendQueue.q_ =
      [⟨"/data/local/tmp/rotom_inbox/early.bin", sampleContents 600⟩,
        ⟨"/data/local/tmp/rotom_inbox/early.bin", sampleContents 600⟩] ∧
    (scanDirLoopIter defaultMinSize blockedIntake
        (scanDirLoopIter defaultMinSize blockedIntake
          (startedWorld [] false))).g_sendQueue.q_.count
      ⟨"/data/local/tmp/rotom_inbox/late.bin", sampleContents 600⟩ = 0 := by
  refine ⟨by decide, by simp [blockedIntake], ?_, ?_⟩
  · rfl
  · have hq : (scanDirLoopIter defaultMinSize blockedIntake
        (scanDirLoopIter defaultMinSize blockedIntake
          (startedWorld [] false))).g_sendQueue.q_ =
        [⟨"/data/local/tmp/rotom_inbox/early.bin", sampleContents 600⟩,
          ⟨"/data/local/tmp/rotom_inbox/early.bin", sampleContents 600⟩] := rfl
    rw [hq]
    have hne : (⟨"/data/local/tmp/rotom_inbox/early.bin", sampleContents 600⟩ : SendItem) ≠
        ⟨"/data/local/tmp/rotom_inbox/late.bin", sampleContents 600⟩ := by
      intro h
      have hp := congrArg SendItem.path h
      exact absurd hp (by decide)
    simp [List.count_cons, hne]

/-- C21, amended.  A scan pass keeps no record of earlier passes and does not
consult the queue: two consecutive passes of `scanDirLoop` over the same
directory listing, with nothing delivered or removed in between, append twice,
whatever the queue held before, the eligible files that a pass reaches, that
is, those listed before the first entry on which a filesystem query raises an
exception.  The queue then holds at least two items with the path and payload
of every such file.  When no entry raises an exception a pass reaches the
whole listing, so every eligible file is pushed twice. -/
theorem scan_passes_push_reached_twice (minSize : Int) (entries : List DirEntry) (w : World)
    (hrun : w.g_running = true) :
    scanDirLoopIter minSize entries (scanDirLoopIter minSize entries w) =
        { w with
          g_sendQueue :=
            { w.g_sendQueue with
              q_ := w.g_sendQueue.q_ ++
                ((scanReached entries).filter (DirEntry.enqueued minSize)).map
                  DirEntry.toItem ++
                ((scanReached entries).filter (DirEntry.enqueued minSize)).map
                  DirEntry.toItem }
          trace := w.trace ++ scanSleeps ++ scanSleeps } ∧
      (∀ p ∈ scanReached entries, p.enqueued minSize = true →
        2 ≤ (scanDirLoopIter minSize entries
          (scanDirLoopIter minSize entries w)).g_sendQueue.q_.count p.toItem) ∧
      ((∀ p ∈ entries, p.throws = false) → scanReached entries = entries) := by
  have h1 := scanDirLoopIter_eq minSize entries w hrun
  have h2 : scanDirLoopIter minSize entries (scanDirLoopIter minSize entries w) =
      { w with
        g_sendQueue :=
          { w.g_sendQueue with
            q_ := w.g_sendQueue.q_ ++
              ((scanReached entries).filter (DirEntry.enqueued minSize)).map
                DirEntry.toItem ++
              ((scanReached entries).filter (DirEntry.enqueued minSize)).map
                DirEntry.toItem }
        trace := w.trace ++ scanSleeps ++ scanSleeps } := by
    have hrun2 : (scanDirLoopIter minSize entries w).g_running = true := by
      rw [h1]; exact hrun
    rw [scanDirLoopIter_eq minSize entries (scanDirLoopIter minSize entries w) hrun2, h1]
  refine ⟨h2, ?_, scanReached_of_no_throw entries⟩
  intro p hp hel
  rw [h2]
  have hmem : p.toItem ∈
      ((scanReached entries).filter (DirEntry.enqueued minSize)).map DirEntry.toItem :=
    List.mem_map.2 ⟨p, List.mem_filter.2 ⟨hp, hel⟩, rfl⟩
  have hc : 1 ≤ (((scanReached entries).filter (DirEntry.enqueued minSize)).map
      DirEntry.toItem).count p.toItem := List.count_pos_iff.2 hmem
  simp only [List.count_append]
  omega

/-- Witness for the amended C21: a 600-byte file and a 10-byte file in the
intake directory, scanned twice with the default threshold from an empty
queue; no entry raises an exception, so the whole listing is reached. -/
theorem scan_passes_push_reached_twice_witness :
    (startedWorld [] false).g_running = true ∧
    scanReached exampleIntake = exampleIntake ∧
    (scanDirLoopIter defaultMinSize exampleIntake
        (scanDirLoopIter defaultMinSize exampleIntake (startedWorld [] false))).g_sendQueue.q_ =
      [⟨"/data/local/tmp/rotom_inbox/big.bin", sampleContents 600⟩,
        ⟨"/data/local/tmp/rotom_inbox/big.bin", sampleContents 600⟩] ∧
    2 ≤ (scanDirLoopIter defaultMinSize exampleIntake
        (scanDirLoopIter defaultMinSize exampleIntake
          (startedWorld [] false))).g_sendQueue.q_.count
      (DirEntry.toItem ⟨"/data/local/tmp/rotom_inbox/big.bin", false, true, 600, true,
        sampleContents 600⟩) :=
  ⟨rfl,
    (scan_passes_push_reached_twice defaultMinSize exampleIntake (startedWorld [] false)
      rfl).2.2 (by simp [exampleIntake]),
    congrArg (fun v : World => v.g_sendQueue.q_)
      (scan_passes_push_reached_twice defaultMinSize exampleIntake (startedWorld [] false)
        rfl).1,
    (scan_passes_push_reached_twice defaultMinSize exampleIntake (startedWorld [] false)
      rfl).2.1 ⟨"/data/local/tmp/rotom_inbox/big.bin", false, true, 600, true,
        sampleContents 600⟩ (by simp [scanReached, exampleIntake]) (by decide)⟩

end RotomWorker
